import Mathlib

/-!
Verification of the library discrete-event simulation (`src/gui_pyqt5.py` and
`src/eventos.py`) by a shallow embedding in Lean 4.

Modelling conventions:
* Python floats are modelled as exact rationals (`Rat`); the numeric claims are
  settled in exact arithmetic.
* Python object references (the mutable `Cliente` objects shared between the
  future-event list, the engine's sets and the clerks) are modelled by an
  id-keyed store `Nat → Option Cliente` in the simulation state; lists such as
  `clientes_activos` hold ids.
* `random.random()` is modelled by an oracle stream `rnds : Nat → Rat` together
  with a cursor `rnd_idx`; each call reads the stream and advances the cursor.
* `math.log` (used only by the exponential search-time generator) is modelled
  by an oracle `log_fn : Rat → Rat`; no claim depends on its values.
* Python's `int(x)` truncates toward zero: `pyInt` below.
* Python truthiness of an `Optional[float]` (`if cliente.hora_salida:`) is
  `pyTruthy` below (`None` and `0.0` are falsy).
-/

/-- Python `int(q)`: truncation toward zero. -/
def pyInt (q : Rat) : Int := if 0 ≤ q then ⌊q⌋ else ⌈q⌉

/-- Python truthiness of an `Optional[float]` value: `None` and `0.0` are falsy. -/
def pyTruthy : Option Rat → Bool
  | none => false
  | some t => t ≠ 0

/-- Python `math.isclose(a, b, rel_tol=1e-9, abs_tol)` (the default
`rel_tol = 1e-9` stays in force when only `abs_tol` is passed). -/
def mathIsclose (a b rel_tol abs_tol : Rat) : Prop :=
  |a - b| ≤ max (rel_tol * max |a| |b|) abs_tol

instance (a b rel_tol abs_tol : Rat) : Decidable (mathIsclose a b rel_tol abs_tol) := by
  unfold mathIsclose; infer_instance

/-! ## The Euler integrator (`IntegradorEuler`, gui_pyqt5.py lines 45-70) -/

/-- One row of the recorded Euler table (`{'t': .., 'p': .., 'dp/dt': ..}`). -/
structure EulerRow where
  t : Rat
  p : Rat
  dpdt : Rat
deriving DecidableEq, Repr

/-- State of `IntegradorEuler`: step `h`, rate constant `K` (an `int` in the
source), current pages `p`, elapsed time `t`, and the recorded table. -/
structure IntegradorEuler where
  h : Rat
  K : Int
  p : Rat
  t : Rat
  tabla_euler : List EulerRow
deriving DecidableEq, Repr

namespace IntegradorEuler

/-- The derivative `dP/dt = K / 5.0` (constant in `p` and `t`). -/
def derivada (ig : IntegradorEuler) (_p _t : Rat) : Rat := (ig.K : Rat) / 5

/-- The constructor `IntegradorEuler(h, K, p_inicial)`. -/
def init (h : Rat) (K : Int) (p_inicial : Rat) : IntegradorEuler :=
  { h := h, K := K, p := p_inicial, t := 0,
    tabla_euler := [{ t := 0, p := p_inicial, dpdt := (K : Rat) / 5 }] }

/-- One explicit Euler step (`paso`): `p ← p + h·f(p,t)`, `t ← t + h`,
appending a table row. -/
def paso (ig : IntegradorEuler) : IntegradorEuler :=
  let derivada_actual := ig.derivada ig.p ig.t
  let p' := ig.p + ig.h * derivada_actual
  let t' := ig.t + ig.h
  { ig with
    p := p'
    t := t'
    tabla_euler := ig.tabla_euler ++ [{ t := t', p := p', dpdt := (ig.K : Rat) / 5 }] }

/-- The `while p < objetivo and pasos_dados < max_pasos` loop, written with the
remaining permitted iterations (`max_pasos - pasos_dados`) as the recursion
fuel; this is exactly the source's bounded loop. -/
def integrarLoop (objetivo : Rat) : Nat → IntegradorEuler → IntegradorEuler
  | 0, ig => ig
  | n + 1, ig => if ig.p < objetivo then integrarLoop objetivo n ig.paso else ig

/-- `integrar_hasta_paginas(paginas_objetivo)`: runs the capped loop and
returns the elapsed time together with the final integrator state. -/
def integrar_hasta_paginas (ig : IntegradorEuler) (paginas_objetivo : Rat) :
    Rat × IntegradorEuler :=
  let max_pasos := (pyInt (paginas_objetivo / ig.h * (3 / 2))).toNat
  let ig' := integrarLoop paginas_objetivo max_pasos ig
  (ig'.t, ig')

/-- Number of steps actually taken, recoverable from the recorded table. -/
def pasos_dados (ig : IntegradorEuler) : Nat := ig.tabla_euler.length - 1

end IntegradorEuler

/-! ## Event types and events (`TipoEvento`, `Evento`, gui_pyqt5.py lines 75-94) -/

/-- Event kinds of the engine (`TipoEvento` in gui_pyqt5.py; the `TipoEvento`
of eventos.py is the subset without `INICIALIZACION`). -/
inductive TipoEvento where
  | INICIALIZACION
  | LLEGADA_CLIENTE
  | FIN_ATENCION
  | FIN_LECTURA
  | FIN_SIMULACION
deriving DecidableEq, Repr, Inhabited

/-- The payload dictionary `datos` of an event.  In the source it holds
references to the mutable `Cliente`/`Empleado` objects; references are
modelled by ids (see the store in `Simulacion`). -/
structure Datos where
  cliente : Option Nat := none
  empleado : Option Nat := none
deriving DecidableEq, Repr, Inhabited

/-- An event: `Evento(tiempo, tipo, datos)`; `__lt__` compares `tiempo` only. -/
structure Evento where
  tiempo : Rat
  tipo : TipoEvento
  datos : Datos := {}
deriving DecidableEq, Repr

instance : Inhabited Evento := ⟨{ tiempo := 0, tipo := TipoEvento.INICIALIZACION }⟩

/-- Default used for (never-hit) out-of-range list reads in the heap code. -/
def evDefault : Evento := { tiempo := 0, tipo := TipoEvento.INICIALIZACION }

/-- The ordering used by both future-event lists: non-strict comparison of
timestamps (Python's stable `sort` and `heapq` consult only
`Evento.__lt__`, i.e. `tiempo <`). -/
def evLE (a b : Evento) : Prop := a.tiempo ≤ b.tiempo

instance : DecidableRel evLE := fun a b => inferInstanceAs (Decidable (a.tiempo ≤ b.tiempo))

instance : IsTotal Evento evLE := ⟨fun a b => le_total a.tiempo b.tiempo⟩

instance : IsTrans Evento evLE := ⟨fun _ _ _ h h' => le_trans h h'⟩

/-! ## The heap-based FEL (Python's `heapq`, used by `Simulacion.agregar_evento`
and `Simulacion.proximo_evento`, gui_pyqt5.py lines 236-242)

The CPython `heapq` algorithms (`heappush` = append + `_siftdown`,
`heappop` = pop last + move to root + `_siftup`) are embedded verbatim on
`List Evento`.  The two `while` loops are written with explicit recursion
fuel; the fuel passed by the wrappers always suffices, exactly mirroring the
loops' own termination. -/

namespace heapq

/-- CPython `_siftdown(heap, 0, pos)` with the moving item `newitem` held in a
register: climb toward the root while `newitem < parent`.  The fuel bounds the
number of iterations; `pos` strictly decreases, so fuel `pos` is enough. -/
def siftdownLoop (newitem : Evento) : Nat → List Evento → Nat → List Evento
  | 0, heap, pos => heap.set pos newitem
  | fuel + 1, heap, pos =>
    if 0 < pos then
      let parentpos := (pos - 1) / 2
      let parent := heap.getD parentpos evDefault
      if newitem.tiempo < parent.tiempo then
        siftdownLoop newitem fuel (heap.set pos parent) parentpos
      else
        heap.set pos newitem
    else
      heap.set pos newitem

/-- CPython `heappush(heap, item)`: append, then sift the new last element
down toward the root. -/
def heappush (heap : List Evento) (item : Evento) : List Evento :=
  siftdownLoop item heap.length (heap ++ [item]) heap.length

/-- CPython `_siftup(heap, 0)` with the moving item in a register: walk the
hole down to a leaf, always promoting the smaller child, then place `newitem`
there and let `_siftdown` restore it upward.  The hole index strictly
increases, so fuel `heap.length` is enough from the root. -/
def siftupLoop (newitem : Evento) : Nat → List Evento → Nat → List Evento
  | 0, heap, pos => siftdownLoop newitem pos (heap.set pos newitem) pos
  | fuel + 1, heap, pos =>
    let endpos := heap.length
    let childpos := 2 * pos + 1
    if childpos < endpos then
      let rightpos := childpos + 1
      let childpos' :=
        if rightpos < endpos ∧
            ¬ (heap.getD childpos evDefault).tiempo < (heap.getD rightpos evDefault).tiempo
        then rightpos else childpos
      siftupLoop newitem fuel (heap.set pos (heap.getD childpos' evDefault)) childpos'
    else
      siftdownLoop newitem pos (heap.set pos newitem) pos

/-- CPython `heappop(heap)`: remove the last element; if elements remain, the
root is returned and the last element is sifted up from the root.  Returns
`none` on the empty heap (`Simulacion.proximo_evento` guards this case). -/
def heappop (heap : List Evento) : Option (Evento × List Evento) :=
  match heap.getLast? with
  | none => none
  | some lastelt =>
    let rest := heap.dropLast
    if rest.isEmpty then
      some (lastelt, [])
    else
      some (rest.getD 0 evDefault, siftupLoop lastelt rest.length (rest.set 0 lastelt) 0)

/-- Repeatedly `heappop` until the heap is empty, collecting the returned
events in order; each pop removes exactly one element, so fuel
`heap.length` suffices. -/
def popAllLoop : Nat → List Evento → List Evento
  | 0, _ => []
  | fuel + 1, heap =>
    match heappop heap with
    | none => []
    | some (e, heap') => e :: popAllLoop fuel heap'

/-- All events of a heap in pop order. -/
def popAll (heap : List Evento) : List Evento := popAllLoop heap.length heap

end heapq

/-! ### List helpers for the heap proofs -/

namespace heapq

theorem getD_set_ne (l : List Evento) (i j : Nat) (a : Evento) (h : j ≠ i) :
    (l.set i a).getD j evDefault = l.getD j evDefault := by
  rw [List.getD_eq_getElem?_getD, List.getD_eq_getElem?_getD, List.getElem?_set,
    if_neg (Ne.symm h)]

theorem getD_set_self (l : List Evento) (i : Nat) (a : Evento) (h : i < l.length) :
    (l.set i a).getD i evDefault = a := by
  rw [List.getD_eq_getElem?_getD, List.getElem?_set, if_pos rfl, if_pos h, Option.getD_some]

theorem getD_mem (l : List Evento) (i : Nat) (h : i < l.length) :
    l.getD i evDefault ∈ l := by
  rw [List.getD_eq_getElem l evDefault h]
  exact List.getElem_mem h

theorem count_set_add (l : List Evento) (i : Nat) (a x : Evento) (h : i < l.length) :
    (l.set i a).count x + (if l.getD i evDefault = x then 1 else 0)
      = l.count x + (if a = x then 1 else 0) := by
  induction l generalizing i with
  | nil => simp at h
  | cons b t ih =>
    cases i with
    | zero =>
      simp only [List.set_cons_zero, List.count_cons, beq_iff_eq, List.getD_cons_zero]
      split_ifs <;> omega
    | succ n =>
      simp only [List.set_cons_succ, List.count_cons, beq_iff_eq, List.getD_cons_succ]
      have hn : n < t.length := by simpa using Nat.lt_of_succ_lt_succ h
      have := ih n hn
      split_ifs at this ⊢ <;> omega

theorem set_set_perm (l : List Evento) (p q : Nat) (x : Evento)
    (hpq : p ≠ q) (hp : p < l.length) (hq : q < l.length) :
    ((l.set p (l.getD q evDefault)).set q x).Perm (l.set p x) := by
  rw [List.perm_iff_count]
  intro y
  have h1 := count_set_add (l.set p (l.getD q evDefault)) q x y (by simpa using hq)
  rw [getD_set_ne l p q _ (Ne.symm hpq)] at h1
  have h2 := count_set_add l p (l.getD q evDefault) y hp
  have h3 := count_set_add l p x y hp
  split_ifs at h1 h2 h3 <;> omega

theorem set_append_last (l : List Evento) (x y : Evento) :
    (l ++ [x]).set l.length y = l ++ [y] := by
  induction l with
  | nil => rfl
  | cons b t ih => simp [List.set_cons_succ, ih]

/-! ### Equation lemmas for the sift loops -/

theorem siftdownLoop_zero (x : Evento) (heap : List Evento) (pos : Nat) :
    siftdownLoop x 0 heap pos = heap.set pos x := rfl

theorem siftdownLoop_succ_step (x : Evento) (heap : List Evento) (pos fuel : Nat)
    (h0 : 0 < pos)
    (hlt : x.tiempo < (heap.getD ((pos - 1) / 2) evDefault).tiempo) :
    siftdownLoop x (fuel + 1) heap pos
      = siftdownLoop x fuel (heap.set pos (heap.getD ((pos - 1) / 2) evDefault))
          ((pos - 1) / 2) := by
  simp only [siftdownLoop, if_pos h0, if_pos hlt]

theorem siftdownLoop_succ_stop (x : Evento) (heap : List Evento) (pos fuel : Nat)
    (h : ¬ (0 < pos ∧ x.tiempo < (heap.getD ((pos - 1) / 2) evDefault).tiempo)) :
    siftdownLoop x (fuel + 1) heap pos = heap.set pos x := by
  by_cases h0 : 0 < pos
  · have hlt : ¬ x.tiempo < (heap.getD ((pos - 1) / 2) evDefault).tiempo := fun hl => h ⟨h0, hl⟩
    simp only [siftdownLoop, if_pos h0, if_neg hlt]
  · simp only [siftdownLoop, if_neg h0]

/-- The chosen child index of `pos` in `siftupLoop`. -/
def elegirHijo (heap : List Evento) (pos : Nat) : Nat :=
  if 2 * pos + 1 + 1 < heap.length ∧
      ¬ (heap.getD (2 * pos + 1) evDefault).tiempo
          < (heap.getD (2 * pos + 1 + 1) evDefault).tiempo
  then 2 * pos + 1 + 1 else 2 * pos + 1

theorem siftupLoop_zero (x : Evento) (heap : List Evento) (pos : Nat) :
    siftupLoop x 0 heap pos = siftdownLoop x pos (heap.set pos x) pos := rfl

theorem siftupLoop_succ_step (x : Evento) (heap : List Evento) (pos fuel : Nat)
    (h : 2 * pos + 1 < heap.length) :
    siftupLoop x (fuel + 1) heap pos
      = siftupLoop x fuel (heap.set pos (heap.getD (elegirHijo heap pos) evDefault))
          (elegirHijo heap pos) := by
  simp only [siftupLoop, if_pos h, elegirHijo]

theorem siftupLoop_succ_stop (x : Evento) (heap : List Evento) (pos fuel : Nat)
    (h : ¬ 2 * pos + 1 < heap.length) :
    siftupLoop x (fuel + 1) heap pos = siftdownLoop x pos (heap.set pos x) pos := by
  simp only [siftupLoop, if_neg h]

theorem elegirHijo_bounds (heap : List Evento) (pos : Nat) :
    2 * pos + 1 ≤ elegirHijo heap pos ∧ elegirHijo heap pos ≤ 2 * pos + 2 := by
  unfold elegirHijo
  split <;> omega

theorem elegirHijo_lt (heap : List Evento) (pos : Nat) (h : 2 * pos + 1 < heap.length) :
    elegirHijo heap pos < heap.length := by
  unfold elegirHijo
  split
  · next hc => exact hc.1
  · exact h

/-- The chosen child is no later than its sibling (whenever the sibling index
is in range). -/
theorem elegirHijo_min (heap : List Evento) (pos : Nat) (i : Nat)
    (hi : i < heap.length) (hchild : i = 2 * pos + 1 ∨ i = 2 * pos + 2)
    (hne : i ≠ elegirHijo heap pos) :
    (heap.getD (elegirHijo heap pos) evDefault).tiempo ≤ (heap.getD i evDefault).tiempo := by
  by_cases hc : 2 * pos + 1 + 1 < heap.length ∧
      ¬ (heap.getD (2 * pos + 1) evDefault).tiempo
          < (heap.getD (2 * pos + 1 + 1) evDefault).tiempo
  · unfold elegirHijo at hne ⊢
    rw [if_pos hc] at hne ⊢
    have hi' : i = 2 * pos + 1 := by omega
    subst hi'
    exact le_of_not_lt hc.2
  · unfold elegirHijo at hne ⊢
    rw [if_neg hc] at hne ⊢
    have hi' : i = 2 * pos + 1 + 1 := by omega
    subst hi'
    rcases not_and_or.mp hc with hlen | hlt
    · omega
    · exact le_of_lt (not_not.mp hlt)

end heapq

/-! ### Permutation facts for the sift loops -/

namespace heapq

theorem getD_append_left (l t : List Evento) (i : Nat) (h : i < l.length) :
    (l ++ t).getD i evDefault = l.getD i evDefault := by
  rw [List.getD_eq_getElem?_getD, List.getD_eq_getElem?_getD, List.getElem?_append_left h]

theorem getD_dropLast (heap : List Evento) (i : Nat) (h : i < heap.length - 1) :
    heap.dropLast.getD i evDefault = heap.getD i evDefault := by
  rw [List.getD_eq_getElem?_getD, List.getD_eq_getElem?_getD, List.getElem?_dropLast,
    if_pos h]

theorem siftdownLoop_perm : ∀ (fuel : Nat) (x : Evento) (heap : List Evento) (pos : Nat),
    pos ≤ fuel → pos < heap.length →
    (siftdownLoop x fuel heap pos).Perm (heap.set pos x) := by
  intro fuel
  induction fuel with
  | zero =>
    intro x heap pos hf _hp
    have hp0 : pos = 0 := by omega
    subst hp0
    rw [siftdownLoop_zero]
  | succ n ih =>
    intro x heap pos hf hp
    by_cases hcond : 0 < pos ∧ x.tiempo < (heap.getD ((pos - 1) / 2) evDefault).tiempo
    · obtain ⟨h0, hlt⟩ := hcond
      rw [siftdownLoop_succ_step x heap pos n h0 hlt]
      have h1 := ih x (heap.set pos (heap.getD ((pos - 1) / 2) evDefault)) ((pos - 1) / 2)
        (by omega) (by rw [List.length_set]; omega)
      refine h1.trans ?_
      exact set_set_perm heap pos ((pos - 1) / 2) x (by omega) hp (by omega)
    · rw [siftdownLoop_succ_stop x heap pos n hcond]

theorem siftupLoop_perm : ∀ (fuel : Nat) (x : Evento) (heap : List Evento) (pos : Nat),
    pos < heap.length → (siftupLoop x fuel heap pos).Perm (heap.set pos x) := by
  intro fuel
  induction fuel with
  | zero =>
    intro x heap pos hp
    rw [siftupLoop_zero]
    have h1 := siftdownLoop_perm pos x (heap.set pos x) pos (le_refl _)
      (by rw [List.length_set]; exact hp)
    refine h1.trans ?_
    rw [List.set_set]
  | succ n ih =>
    intro x heap pos hp
    by_cases hc : 2 * pos + 1 < heap.length
    · rw [siftupLoop_succ_step x heap pos n hc]
      have hcp_lt := elegirHijo_lt heap pos hc
      have hbounds := elegirHijo_bounds heap pos
      have h1 := ih x (heap.set pos (heap.getD (elegirHijo heap pos) evDefault))
        (elegirHijo heap pos) (by rw [List.length_set]; exact hcp_lt)
      refine h1.trans ?_
      exact set_set_perm heap pos (elegirHijo heap pos) x (by omega) hp hcp_lt
    · rw [siftupLoop_succ_stop x heap pos n hc]
      have h1 := siftdownLoop_perm pos x (heap.set pos x) pos (le_refl _)
        (by rw [List.length_set]; exact hp)
      refine h1.trans ?_
      rw [List.set_set]

theorem heappush_perm (heap : List Evento) (x : Evento) :
    (heappush heap x).Perm (x :: heap) := by
  unfold heappush
  have h1 := siftdownLoop_perm heap.length x (heap ++ [x]) heap.length (le_refl _)
    (by simp)
  refine h1.trans ?_
  rw [set_append_last]
  exact List.perm_append_singleton x heap

/-! ### The heap invariant -/

/-- The binary-min-heap shape invariant: each element is at least its parent. -/
def heapInv (h : List Evento) : Prop :=
  ∀ i, 0 < i → i < h.length →
    (h.getD ((i - 1) / 2) evDefault).tiempo ≤ (h.getD i evDefault).tiempo

/-- A heap with a hole at `p`: all parent constraints not involving `p` hold. -/
def holeA (h : List Evento) (p : Nat) : Prop :=
  ∀ i, 0 < i → i < h.length → i ≠ p → (i - 1) / 2 ≠ p →
    (h.getD ((i - 1) / 2) evDefault).tiempo ≤ (h.getD i evDefault).tiempo

/-- Bridging constraint of the hole: children of the hole are at least the
hole's own parent. -/
def holeB (h : List Evento) (p : Nat) : Prop :=
  ∀ i, 0 < i → i < h.length → (i - 1) / 2 = p → 0 < p →
    (h.getD ((p - 1) / 2) evDefault).tiempo ≤ (h.getD i evDefault).tiempo

/-- The pending item is at most every child of the hole. -/
def holeC (x : Evento) (h : List Evento) (p : Nat) : Prop :=
  ∀ i, 0 < i → i < h.length → (i - 1) / 2 = p →
    x.tiempo ≤ (h.getD i evDefault).tiempo

theorem heapInv_nil : heapInv [] := by
  intro i _ h
  simp at h

/-- Filling the hole with an item that fits between the hole's parent and the
hole's children restores the full invariant. -/
theorem heapInv_set_of_hole (heap : List Evento) (pos : Nat) (x : Evento)
    (hp : pos < heap.length)
    (hA : holeA heap pos) (hC : holeC x heap pos)
    (hparent : 0 < pos → (heap.getD ((pos - 1) / 2) evDefault).tiempo ≤ x.tiempo) :
    heapInv (heap.set pos x) := by
  intro i hi hilen
  rw [List.length_set] at hilen
  by_cases hip : i = pos
  · subst hip
    rw [getD_set_self heap i x hp, getD_set_ne heap i ((i - 1) / 2) x (by omega)]
    exact hparent hi
  · rw [getD_set_ne heap pos i x hip]
    by_cases hpp : (i - 1) / 2 = pos
    · rw [hpp, getD_set_self heap pos x hp]
      exact hC i hi hilen hpp
    · rw [getD_set_ne heap pos ((i - 1) / 2) x hpp]
      exact hA i hi hilen hip hpp

theorem siftdownLoop_heapInv : ∀ (fuel : Nat) (x : Evento) (heap : List Evento) (pos : Nat),
    pos ≤ fuel → pos < heap.length →
    holeA heap pos → holeB heap pos → holeC x heap pos →
    heapInv (siftdownLoop x fuel heap pos) := by
  intro fuel
  induction fuel with
  | zero =>
    intro x heap pos hf hp hA _hB hC
    have hp0 : pos = 0 := by omega
    subst hp0
    rw [siftdownLoop_zero]
    exact heapInv_set_of_hole heap 0 x hp hA hC (fun h => absurd h (lt_irrefl 0))
  | succ n ih =>
    intro x heap pos hf hp hA hB hC
    by_cases hcond : 0 < pos ∧ x.tiempo < (heap.getD ((pos - 1) / 2) evDefault).tiempo
    · obtain ⟨h0, hlt⟩ := hcond
      rw [siftdownLoop_succ_step x heap pos n h0 hlt]
      apply ih x (heap.set pos (heap.getD ((pos - 1) / 2) evDefault)) ((pos - 1) / 2)
        (by omega) (by rw [List.length_set]; omega)
      · -- the hole moved up: constraints not involving the new hole
        intro i hi hilen hne hpne
        rw [List.length_set] at hilen
        have hipos : i ≠ pos := by omega
        rw [getD_set_ne heap pos i _ hipos]
        by_cases hppos : (i - 1) / 2 = pos
        · rw [hppos, getD_set_self heap pos _ hp]
          exact hB i hi hilen hppos h0
        · rw [getD_set_ne heap pos ((i - 1) / 2) _ hppos]
          exact hA i hi hilen hipos hppos
      · -- bridging for the new hole
        intro i hi hilen hchild hpp0
        rw [List.length_set] at hilen
        have hgp_ne : ((pos - 1) / 2 - 1) / 2 ≠ pos := by omega
        rw [getD_set_ne heap pos _ _ hgp_ne]
        have hApp := hA ((pos - 1) / 2) (by omega) (by omega) (by omega) (by omega)
        by_cases hipos : i = pos
        · subst hipos
          rw [getD_set_self heap i _ hp]
          exact hApp
        · rw [getD_set_ne heap pos i _ hipos]
          have hAi := hA i hi hilen hipos (by omega)
          rw [hchild] at hAi
          exact le_trans hApp hAi
      · -- the pending item is at most every child of the new hole
        intro i hi hilen hchild
        rw [List.length_set] at hilen
        by_cases hipos : i = pos
        · subst hipos
          rw [getD_set_self heap i _ hp]
          exact le_of_lt hlt
        · rw [getD_set_ne heap pos i _ hipos]
          have hAi := hA i hi hilen hipos (by omega)
          rw [hchild] at hAi
          exact le_trans (le_of_lt hlt) hAi
    · rw [siftdownLoop_succ_stop x heap pos n hcond]
      apply heapInv_set_of_hole heap pos x hp hA hC
      intro h0
      rcases not_and_or.mp hcond with h | h
      · exact absurd h0 h
      · exact le_of_not_lt h

theorem heappush_heapInv (heap : List Evento) (x : Evento) (h : heapInv heap) :
    heapInv (heappush heap x) := by
  unfold heappush
  apply siftdownLoop_heapInv heap.length x (heap ++ [x]) heap.length (le_refl _) (by simp)
  · intro i hi hilen hne _hpne
    simp only [List.length_append, List.length_singleton] at hilen
    have hi' : i < heap.length := by omega
    rw [getD_append_left heap [x] i hi', getD_append_left heap [x] _ (by omega)]
    exact h i hi hi'
  · intro i hi hilen hchild _hpos
    simp only [List.length_append, List.length_singleton] at hilen
    omega
  · intro i hi hilen hchild
    simp only [List.length_append, List.length_singleton] at hilen
    omega

theorem siftupLoop_heapInv : ∀ (fuel : Nat) (x : Evento) (heap : List Evento) (pos : Nat),
    pos < heap.length → heap.length ≤ fuel + pos + 1 →
    holeA heap pos → holeB heap pos →
    heapInv (siftupLoop x fuel heap pos) := by
  intro fuel
  induction fuel with
  | zero =>
    intro x heap pos hp hlen hA _hB
    rw [siftupLoop_zero]
    apply siftdownLoop_heapInv pos x (heap.set pos x) pos (le_refl _)
      (by rw [List.length_set]; exact hp)
    · intro i hi hilen hne hpne
      rw [List.length_set] at hilen
      rw [getD_set_ne heap pos i x hne, getD_set_ne heap pos _ x hpne]
      exact hA i hi hilen hne hpne
    · intro i hi hilen hchild _hpos0
      rw [List.length_set] at hilen
      omega
    · intro i hi hilen hchild
      rw [List.length_set] at hilen
      omega
  | succ n ih =>
    intro x heap pos hp hlen hA hB
    by_cases hc : 2 * pos + 1 < heap.length
    · rw [siftupLoop_succ_step x heap pos n hc]
      have hcp_lt : elegirHijo heap pos < heap.length := elegirHijo_lt heap pos hc
      have hbounds := elegirHijo_bounds heap pos
      apply ih x _ (elegirHijo heap pos) (by rw [List.length_set]; exact hcp_lt)
        (by rw [List.length_set]; omega)
      · -- holeA at the promoted child position
        intro i hi hilen hne hpne
        rw [List.length_set] at hilen
        by_cases hipos : i = pos
        · subst hipos
          have hgp_ne : (i - 1) / 2 ≠ i := by omega
          rw [getD_set_ne heap i _ _ hgp_ne, getD_set_self heap i _ hp]
          exact hB (elegirHijo heap i) (by omega) hcp_lt (by omega) hi
        · rw [getD_set_ne heap pos i _ hipos]
          by_cases hppos : (i - 1) / 2 = pos
          · rw [hppos, getD_set_self heap pos _ hp]
            exact elegirHijo_min heap pos i hilen (by omega) hne
          · rw [getD_set_ne heap pos _ _ hppos]
            exact hA i hi hilen hipos hppos
      · -- bridging at the promoted child position
        intro i hi hilen hchild _hcp0
        rw [List.length_set] at hilen
        have hcp_par : (elegirHijo heap pos - 1) / 2 = pos := by omega
        rw [hcp_par, getD_set_self heap pos _ hp]
        have hi_pos : i ≠ pos := by omega
        rw [getD_set_ne heap pos i _ hi_pos]
        have hAi := hA i hi hilen hi_pos (by omega)
        rw [hchild] at hAi
        exact hAi
    · rw [siftupLoop_succ_stop x heap pos n hc]
      apply siftdownLoop_heapInv pos x (heap.set pos x) pos (le_refl _)
        (by rw [List.length_set]; exact hp)
      · intro i hi hilen hne hpne
        rw [List.length_set] at hilen
        rw [getD_set_ne heap pos i x hne, getD_set_ne heap pos _ x hpne]
        exact hA i hi hilen hne hpne
      · intro i hi hilen hchild _hpos0
        rw [List.length_set] at hilen
        omega
      · intro i hi hilen hchild
        rw [List.length_set] at hilen
        omega

end heapq

/-! ### heappop facts -/

namespace heapq

theorem heappop_nil : heappop [] = none := rfl

theorem heappop_of_len_one (heap : List Evento) (h : heap.length = 1) :
    heappop heap = some (heap.getD 0 evDefault, []) := by
  obtain ⟨e, rfl⟩ := List.length_eq_one.mp h
  rfl

theorem heappop_of_len_ge2 (heap : List Evento) (h : 2 ≤ heap.length) :
    heappop heap = some (heap.getD 0 evDefault,
      siftupLoop (heap.getD (heap.length - 1) evDefault) heap.dropLast.length
        (heap.dropLast.set 0 (heap.getD (heap.length - 1) evDefault)) 0) := by
  have hne : heap ≠ [] := by
    intro hh
    subst hh
    simp at h
  have hlast : heap.getLast? = some (heap.getD (heap.length - 1) evDefault) := by
    rw [List.getLast?_eq_getElem?, List.getElem?_eq_getElem (by omega),
      List.getD_eq_getElem heap evDefault (by omega)]
  have hrest_ne : ¬ heap.dropLast.isEmpty := by
    rw [List.isEmpty_iff]
    intro hh
    have := List.length_dropLast heap
    rw [hh] at this
    simp at this
    omega
  unfold heappop
  rw [hlast]
  simp only [if_neg hrest_ne]
  rw [getD_dropLast heap 0 (by omega)]

theorem heappop_eq_none_iff (heap : List Evento) : heappop heap = none ↔ heap = [] := by
  constructor
  · intro h
    by_contra hne
    have hlen : 0 < heap.length := List.length_pos.mpr hne
    rcases Nat.lt_or_ge heap.length 2 with h1 | h2
    · rw [heappop_of_len_one heap (by omega)] at h
      exact Option.noConfusion h
    · rw [heappop_of_len_ge2 heap h2] at h
      exact Option.noConfusion h
  · intro h
    subst h
    rfl

theorem heappop_perm (heap : List Evento) (e : Evento) (h' : List Evento)
    (hpp : heappop heap = some (e, h')) : heap.Perm (e :: h') := by
  rcases Nat.lt_or_ge heap.length 2 with h1 | h2
  · rcases Nat.lt_or_ge heap.length 1 with h0 | h0
    · have : heap = [] := List.length_eq_zero.mp (by omega)
      subst this
      exact Option.noConfusion hpp
    · rw [heappop_of_len_one heap (by omega)] at hpp
      obtain ⟨e1, rfl⟩ := List.length_eq_one.mp (show heap.length = 1 by omega)
      injection hpp with hpair
      injection hpair with he hh
      subst he
      subst hh
      rfl
  · rw [heappop_of_len_ge2 heap h2] at hpp
    injection hpp with hpair
    injection hpair with he hh
    have hrest_len : 0 < heap.dropLast.length := by
      rw [List.length_dropLast]
      omega
    have hperm1 : h'.Perm
        (heap.dropLast.set 0 (heap.getD (heap.length - 1) evDefault)) := by
      rw [← hh]
      have := siftupLoop_perm heap.dropLast.length
        (heap.getD (heap.length - 1) evDefault)
        (heap.dropLast.set 0 (heap.getD (heap.length - 1) evDefault)) 0
        (by rw [List.length_set]; exact hrest_len)
      refine this.trans ?_
      rw [List.set_set]
    have hne : heap ≠ [] := by
      intro hhh
      subst hhh
      simp at h2
    have hsplit : heap.dropLast ++ [heap.getD (heap.length - 1) evDefault] = heap := by
      have h1 := List.dropLast_append_getLast hne
      rw [List.getLast_eq_getElem heap hne,
        ← List.getD_eq_getElem heap evDefault (by omega)] at h1
      exact h1
    rw [List.perm_iff_count]
    intro y
    have hcount0 : heap.count y
        = heap.dropLast.count y
          + (if heap.getD (heap.length - 1) evDefault = y then 1 else 0) := by
      conv_lhs => rw [← hsplit]
      rw [List.count_append, List.count_singleton]
      simp only [beq_iff_eq]
    have hcount1 := count_set_add heap.dropLast 0
      (heap.getD (heap.length - 1) evDefault) y hrest_len
    have hcount2 : h'.count y
        = (heap.dropLast.set 0 (heap.getD (heap.length - 1) evDefault)).count y :=
      hperm1.count_eq y
    have hcount3 : (e :: h').count y = h'.count y + (if e = y then 1 else 0) := by
      rw [List.count_cons]
      simp only [beq_iff_eq]
    have he' : heap.dropLast.getD 0 evDefault = e := by
      rw [getD_dropLast heap 0 (by omega), he]
    rw [he'] at hcount1
    split_ifs at hcount0 hcount1 hcount3 <;> omega

theorem heappop_heapInv (heap : List Evento) (e : Evento) (h' : List Evento)
    (hinv : heapInv heap) (hpp : heappop heap = some (e, h')) : heapInv h' := by
  rcases Nat.lt_or_ge heap.length 2 with h1 | h2
  · rcases Nat.lt_or_ge heap.length 1 with h0 | h0
    · have : heap = [] := List.length_eq_zero.mp (by omega)
      subst this
      exact Option.noConfusion hpp
    · rw [heappop_of_len_one heap (by omega)] at hpp
      injection hpp with hpair
      injection hpair with _he hh
      rw [← hh]
      exact heapInv_nil
  · rw [heappop_of_len_ge2 heap h2] at hpp
    injection hpp with hpair
    injection hpair with _he hh
    rw [← hh]
    have hrest_len : 0 < heap.dropLast.length := by
      rw [List.length_dropLast]
      omega
    have hrest_inv : heapInv heap.dropLast := by
      intro i hi hilen
      rw [List.length_dropLast] at hilen
      rw [getD_dropLast heap i (by omega), getD_dropLast heap _ (by omega)]
      exact hinv i hi (by omega)
    apply siftupLoop_heapInv heap.dropLast.length _ _ 0
      (by rw [List.length_set]; exact hrest_len)
      (by rw [List.length_set]; omega)
    · intro i hi hilen hne hpne
      rw [List.length_set] at hilen
      rw [getD_set_ne _ 0 i _ hne, getD_set_ne _ 0 _ _ hpne]
      exact hrest_inv i hi hilen
    · intro i _hi _hilen _hchild hpos0
      exact absurd hpos0 (lt_irrefl 0)

theorem heappop_root (heap : List Evento) (e : Evento) (h' : List Evento)
    (hpp : heappop heap = some (e, h')) : e = heap.getD 0 evDefault := by
  rcases Nat.lt_or_ge heap.length 2 with h1 | h2
  · rcases Nat.lt_or_ge heap.length 1 with h0 | h0
    · have : heap = [] := List.length_eq_zero.mp (by omega)
      subst this
      exact Option.noConfusion hpp
    · rw [heappop_of_len_one heap (by omega)] at hpp
      injection hpp with hpair
      injection hpair with he _hh
      exact he.symm
  · rw [heappop_of_len_ge2 heap h2] at hpp
    injection hpp with hpair
    injection hpair with he _hh
    exact he.symm

/-- The root of a heap is a minimum. -/
theorem heapInv_root_le (heap : List Evento) (hinv : heapInv heap) :
    ∀ i, i < heap.length →
      (heap.getD 0 evDefault).tiempo ≤ (heap.getD i evDefault).tiempo := by
  intro i
  induction i using Nat.strong_induction_on with
  | _ i ih =>
    intro hilen
    rcases Nat.eq_zero_or_pos i with h0 | h0
    · subst h0
      exact le_refl _
    · exact le_trans (ih ((i - 1) / 2) (by omega) (by omega)) (hinv i h0 hilen)

theorem popAllLoop_mem : ∀ (fuel : Nat) (heap : List Evento) (b : Evento),
    b ∈ popAllLoop fuel heap → b ∈ heap := by
  intro fuel
  induction fuel with
  | zero =>
    intro heap b hb
    simp [popAllLoop] at hb
  | succ n ih =>
    intro heap b hb
    rcases hpp : heappop heap with _ | ⟨e, h'⟩
    · rw [popAllLoop, hpp] at hb
      simp at hb
    · rw [popAllLoop, hpp] at hb
      have hperm := heappop_perm heap e h' hpp
      rcases List.mem_cons.mp hb with hbe | hbtail
      · subst hbe
        exact hperm.mem_iff.mpr (List.mem_cons_self b h')
      · exact hperm.mem_iff.mpr (List.mem_cons_of_mem e (ih h' b hbtail))

theorem popAllLoop_sorted : ∀ (fuel : Nat) (heap : List Evento), heapInv heap →
    List.Sorted evLE (popAllLoop fuel heap) := by
  intro fuel
  induction fuel with
  | zero =>
    intro heap _
    exact List.sorted_nil
  | succ n ih =>
    intro heap hinv
    rcases hpp : heappop heap with _ | ⟨e, h'⟩
    · rw [popAllLoop, hpp]
      exact List.sorted_nil
    · rw [popAllLoop, hpp]
      rw [List.sorted_cons]
      constructor
      · intro b hb
        have hb' : b ∈ h' := popAllLoop_mem n h' b hb
        have hperm := heappop_perm heap e h' hpp
        have hbheap : b ∈ heap := hperm.mem_iff.mpr (List.mem_cons_of_mem e hb')
        obtain ⟨j, hj, hjb⟩ := List.mem_iff_getElem.mp hbheap
        have hroot := heapInv_root_le heap hinv j hj
        rw [List.getD_eq_getElem heap evDefault hj, hjb] at hroot
        rw [heappop_root heap e h' hpp]
        exact hroot
      · exact ih h' (heappop_heapInv heap e h' hinv hpp)

/-- Sortedness of the complete pop sequence of any well-formed heap. -/
theorem popAll_sorted (heap : List Evento) (hinv : heapInv heap) :
    List.Sorted evLE (popAll heap) :=
  popAllLoop_sorted heap.length heap hinv

theorem foldl_heappush_heapInv : ∀ (l : List Evento) (heap : List Evento),
    heapInv heap → heapInv (l.foldl heappush heap) := by
  intro l
  induction l with
  | nil =>
    intro heap h
    exact h
  | cons e t ih =>
    intro heap h
    exact ih (heappush heap e) (heappush_heapInv heap e h)

theorem heappush_countP (heap : List Evento) (x : Evento) (p : Evento → Bool) :
    (heappush heap x).countP p = (x :: heap).countP p :=
  (heappush_perm heap x).countP_eq p

theorem heappop_countP (heap : List Evento) (e : Evento) (h' : List Evento)
    (hpp : heappop heap = some (e, h')) (p : Evento → Bool) :
    heap.countP p = (e :: h').countP p :=
  (heappop_perm heap e h' hpp).countP_eq p

end heapq

/-! ## The sorted-list FEL (`ListaEventos`, eventos.py lines 35-74)

`agregar_evento` appends and then calls Python's `list.sort()`, a stable sort
consulting only `Evento.__lt__` (comparison of `tiempo`).  A stable sort's
output is uniquely determined by the input order, so it is modelled by
`List.insertionSort` with the non-strict timestamp order `evLE` (Mathlib's
insertion sort is stable for a total preorder).  `proximo_evento` is
`pop(0)`. -/

namespace Eventos

/-- The FEL of eventos.py: a list kept sorted by timestamp. -/
structure ListaEventos where
  eventos : List Evento := []
deriving DecidableEq, Repr

/-- `agregar_evento`: append, then stable-sort by timestamp. -/
def agregar_evento (le : ListaEventos) (evento : Evento) : ListaEventos :=
  { eventos := (le.eventos ++ [evento]).insertionSort evLE }

/-- `proximo_evento`: pop and return the front of the list (`None` if empty). -/
def proximo_evento (le : ListaEventos) : Option (Evento × ListaEventos) :=
  match le.eventos with
  | [] => none
  | e :: r => some (e, { eventos := r })

/-- `cancelar_evento`: drop pending events of a type (optionally filtered by a
predicate on the event). -/
def cancelar_evento (le : ListaEventos) (tipo : TipoEvento)
    (condicion : Option (Evento → Bool)) : ListaEventos :=
  match condicion with
  | none => { eventos := le.eventos.filter (fun e => ¬ e.tipo = tipo) }
  | some c => { eventos := le.eventos.filter (fun e => ¬ (e.tipo = tipo ∧ c e = true)) }

/-- `obtener_proximos_eventos(n)`: the first `n` events, not removed. -/
def obtener_proximos_eventos (le : ListaEventos) (n : Nat := 5) : List Evento :=
  le.eventos.take n

/-- `tiene_eventos`: whether events are pending. -/
def tiene_eventos (le : ListaEventos) : Bool := !le.eventos.isEmpty

/-- Repeatedly `proximo_evento` until empty, collecting the returned events. -/
def popAllLoop : Nat → ListaEventos → List Evento
  | 0, _ => []
  | fuel + 1, le =>
    match proximo_evento le with
    | none => []
    | some (e, le') => e :: popAllLoop fuel le'

/-- All events of the list FEL in pop order. -/
def popAll (le : ListaEventos) : List Evento := popAllLoop le.eventos.length le

/-- Popping everything returns exactly the internal list, in order. -/
theorem popAll_eq_eventos (le : ListaEventos) : popAll le = le.eventos := by
  unfold popAll
  suffices h : ∀ (fuel : Nat) (l : List Evento), popAllLoop fuel { eventos := l } = l.take fuel by
    rw [h le.eventos.length le.eventos, List.take_length]
  intro fuel
  induction fuel with
  | zero =>
    intro l
    rfl
  | succ n ih =>
    intro l
    cases l with
    | nil => rfl
    | cons e r =>
      simp only [popAllLoop, proximo_evento, List.take_succ_cons]
      rw [ih r]

end Eventos

/-! ### Stability of the sorted-list FEL -/

namespace Eventos

/-- Inserting an element into any list keeps or prepends its own timestamp
class, provided the class predicate `p` is downward-closed against the order
in the sense of `hcomp`. -/
theorem filter_orderedInsert (p : Evento → Bool) (a : Evento)
    (hcomp : ∀ b, p a = true → ¬ evLE a b → p b = false) :
    ∀ l : List Evento,
      (l.orderedInsert evLE a).filter p
        = if p a then a :: l.filter p else l.filter p := by
  intro l
  induction l with
  | nil =>
    simp only [List.orderedInsert, List.filter]
    by_cases hpa : p a = true
    · simp [hpa]
    · simp [hpa]
  | cons b t ih =>
    by_cases hab : evLE a b
    · simp only [List.orderedInsert, if_pos hab]
      by_cases hpa : p a = true
      · simp [List.filter_cons, hpa]
      · simp [List.filter_cons, hpa]
    · simp only [List.orderedInsert, if_neg hab]
      by_cases hpa : p a = true
      · have hpb : p b = false := hcomp b hpa hab
        simp only [List.filter_cons, hpb, Bool.false_eq_true, if_false, ih, if_pos hpa]
      · simp only [List.filter_cons, ih, hpa, Bool.false_eq_true, if_false]

/-- Stability of the modelled `list.sort()`: each timestamp class of the
output equals that of the input, in input order. -/
theorem filter_insertionSort (p : Evento → Bool)
    (hcomp : ∀ a b, p a = true → ¬ evLE a b → p b = false) :
    ∀ l : List Evento, (l.insertionSort evLE).filter p = l.filter p := by
  intro l
  induction l with
  | nil => rfl
  | cons a t ih =>
    simp only [List.insertionSort]
    rw [filter_orderedInsert p a (hcomp a), List.filter_cons, ih]

/-- The timestamp-class predicate used to state stability. -/
def mismaHora (t : Rat) : Evento → Bool := fun e => e.tiempo = t

theorem mismaHora_comp (t : Rat) :
    ∀ a b, mismaHora t a = true → ¬ evLE a b → mismaHora t b = false := by
  intro a b hpa hab
  unfold mismaHora at *
  unfold evLE at hab
  simp only [decide_eq_true_eq] at hpa
  simp only [decide_eq_false_iff_not]
  intro hb
  exact hab (by rw [hpa, hb])

/-- Invariant of repeated `agregar_evento`: the list stays sorted by timestamp
and each timestamp class equals the concatenation of the class of the
accumulator and the class of the pushes, in push order. -/
theorem foldl_agregar_evento (pushes : List Evento) (acc : ListaEventos)
    (hs : List.Sorted evLE acc.eventos) :
    List.Sorted evLE (pushes.foldl agregar_evento acc).eventos ∧
      ∀ t : Rat, (pushes.foldl agregar_evento acc).eventos.filter (mismaHora t)
        = acc.eventos.filter (mismaHora t) ++ pushes.filter (mismaHora t) := by
  induction pushes generalizing acc with
  | nil =>
    refine ⟨hs, ?_⟩
    intro t
    simp
  | cons e ps ih =>
    have hstep : (agregar_evento acc e).eventos
        = (acc.eventos ++ [e]).insertionSort evLE := rfl
    have hsorted : List.Sorted evLE (agregar_evento acc e).eventos := by
      rw [hstep]
      exact List.sorted_insertionSort evLE (acc.eventos ++ [e])
    obtain ⟨h1, h2⟩ := ih (agregar_evento acc e) hsorted
    constructor
    · rw [List.foldl_cons]
      exact h1
    · intro t
      rw [List.foldl_cons, h2 t, hstep,
        filter_insertionSort (mismaHora t) (mismaHora_comp t), List.filter_append,
        List.append_assoc, List.filter_cons]
      by_cases hpe : mismaHora t e = true
      · simp [List.filter_cons, hpe]
      · simp [List.filter_cons, hpe]

end Eventos

/-! ## Entities of the engine (`TipoObjetivo`, `EstadoEmpleado`, `Cliente`,
`Empleado`, gui_pyqt5.py lines 81-144) -/

/-- Customer intents. -/
inductive TipoObjetivo where
  | PEDIR_LIBRO
  | DEVOLVER_LIBRO
  | CONSULTAR
deriving DecidableEq, Repr, Inhabited

/-- Clerk status. -/
inductive EstadoEmpleado where
  | LIBRE
  | OCUPADO
deriving DecidableEq, Repr, Inhabited

/-- The `Cliente` dataclass.  `estado` is the literal status string used by the
source. -/
structure Cliente where
  id : Nat
  hora_llegada : Rat
  objetivo : TipoObjetivo
  rnd_objetivo : Rat
  rnd_tiempo_consulta : Rat := 0
  tiempo_consulta : Rat := 0
  rnd_tiempo_busqueda : Rat := 0
  tiempo_busqueda : Rat := 0
  rnd_tiempo_devolucion : Rat := 0
  tiempo_devolucion : Rat := 0
  fin_atencion_emp1 : Option Rat := none
  fin_atencion_emp2 : Option Rat := none
  se_retira : Bool := false
  rnd_decision : Option Rat := none
  paginas_a_leer : Int := 0
  rnd_paginas : Option Rat := none
  tiempo_lectura : Rat := 0
  fin_lectura : Option Rat := none
  estado : String := "En cola"
  hora_salida : Option Rat := none
  tabla_euler : Option (List EulerRow) := none
deriving DecidableEq, Repr

/-- Default customer, used only for (never-hit) missing store lookups. -/
def clienteDefault : Cliente :=
  { id := 0, hora_llegada := 0, objetivo := TipoObjetivo.CONSULTAR, rnd_objetivo := 0 }

instance : Inhabited Cliente := ⟨clienteDefault⟩

/-- The `Empleado` class.  `cliente_actual` holds the id of the referenced
customer. -/
structure Empleado where
  id : Nat
  estado : EstadoEmpleado
  cliente_actual : Option Nat
  hora_fin_atencion : Option Rat
  tiempo_acumulado_atencion : Rat
  tiempo_acumulado_ocioso : Rat
  ultimo_cambio_estado : Rat
deriving DecidableEq, Repr, Inhabited

namespace Empleado

/-- The `Empleado.__init__` constructor. -/
def init (id : Nat) : Empleado :=
  { id := id, estado := EstadoEmpleado.LIBRE, cliente_actual := none,
    hora_fin_atencion := none, tiempo_acumulado_atencion := 0,
    tiempo_acumulado_ocioso := 0, ultimo_cambio_estado := 0 }

/-- `esta_libre`. -/
def esta_libre (e : Empleado) : Bool := decide (e.estado = EstadoEmpleado.LIBRE)

/-- `atender(cliente, tiempo_fin, reloj)`: accrue idle time if previously
idle, then become busy serving the customer. -/
def atender (e : Empleado) (cliente : Nat) (tiempo_fin reloj : Rat) : Empleado :=
  let e :=
    if e.estado = EstadoEmpleado.LIBRE then
      { e with tiempo_acumulado_ocioso :=
          e.tiempo_acumulado_ocioso + (reloj - e.ultimo_cambio_estado) }
    else e
  { e with
    estado := EstadoEmpleado.OCUPADO
    cliente_actual := some cliente
    hora_fin_atencion := some tiempo_fin
    ultimo_cambio_estado := reloj }

/-- `liberar(reloj)`: accrue busy time if previously busy, then become idle,
returning the released customer (the engine ignores the return value). -/
def liberar (e : Empleado) (reloj : Rat) : Empleado × Option Nat :=
  let e :=
    if e.estado = EstadoEmpleado.OCUPADO then
      { e with tiempo_acumulado_atencion :=
          e.tiempo_acumulado_atencion + (reloj - e.ultimo_cambio_estado) }
    else e
  let cliente := e.cliente_actual
  ({ e with
      estado := EstadoEmpleado.LIBRE
      cliente_actual := none
      hora_fin_atencion := none
      ultimo_cambio_estado := reloj }, cliente)

end Empleado

/-! ## The simulation engine (`Simulacion`, gui_pyqt5.py lines 149-494) -/

/-- The configurable parameters consumed by `Simulacion.__init__` via
`parametros.get(...)`; the defaults are the source's defaults. -/
structure Parametros where
  tiempo_entre_llegadas : Rat := 4
  prob_pedir_libro : Rat := 9 / 20
  prob_devolver_libro : Rat := 9 / 20
  prob_consultar : Rat := 1 / 10
  tiempo_consulta_min : Rat := 2
  tiempo_consulta_max : Rat := 5
  prob_retirarse : Rat := 3 / 5
  max_iteraciones : Nat := 10000
  K_100_200 : Int := 100
  K_200_300 : Int := 90
  K_300_plus : Int := 70
deriving DecidableEq, Repr, Inhabited

/-- One row of `historial_filas`, as assembled by `_capturar_estado`.  The
purely presentational string/RND columns of the source's dictionary are
omitted; every field kept is copied verbatim from the engine state (the
`clientes` column holds the deep copies of the active customers). -/
structure Fila where
  n : Nat
  evento_tipo : TipoEvento
  evento_cliente : Option Nat
  reloj : Rat
  proxima_llegada : Option Rat
  empleado1_estado : EstadoEmpleado
  empleado1_ac_atencion : Rat
  empleado1_ac_ocioso : Rat
  empleado2_estado : EstadoEmpleado
  empleado2_ac_atencion : Rat
  empleado2_ac_ocioso : Rat
  estado_biblioteca_cerrada : Bool
  cola : Nat
  ac_tiempo_permanencia : Rat
  ac_clientes_leyendo : Nat
  clientes : List Cliente
deriving DecidableEq, Repr, Inhabited

/-- The engine state: the fields of `Simulacion.__init__` (parameters, fixed
parameters, mutable state and accumulators), plus the id-keyed customer store
modelling Python references, the oracle stream for `random.random()` (`rnds`
with cursor `rnd_idx`) and the oracle `log_fn` for `math.log`.  The source's
two-element clerk list is modelled as the pair `empleados` with ids 1 and 2. -/
structure Simulacion where
  tiempo_entre_llegadas : Rat
  prob_pedir_libro : Rat
  prob_devolver_libro : Rat
  prob_consultar : Rat
  tiempo_consulta_min : Rat
  tiempo_consulta_max : Rat
  prob_retirarse : Rat
  max_iteraciones : Nat
  K_100_200 : Int
  K_200_300 : Int
  K_300_plus : Int
  media_busqueda : Rat
  tiempo_devolucion_min : Rat
  tiempo_devolucion_max : Rat
  paginas_min : Int
  paginas_max : Int
  capacidad_maxima : Nat
  tiempo_maximo : Rat
  h_euler : Rat
  reloj : Rat
  eventos : List Evento
  clientes_activos : List Nat
  cola_espera : List Nat
  clientes_leyendo : List Nat
  empleados : Empleado × Empleado
  contador_clientes : Nat
  numero_fila : Nat
  ultimo_reloj : Rat
  ac_tiempo_permanencia : Rat
  total_clientes_atendidos : Nat
  total_clientes_leyendo : Nat
  total_clientes_generados : Nat
  total_clientes_rechazados : Nat
  biblioteca_cerrada : Bool
  tiempo_biblioteca_cerrada_ac : Rat
  tiempo_inicio_cerrada : Option Rat
  historial_filas : List Fila
  tablas_euler_clientes : Nat → Option (List EulerRow)
  clientes : Nat → Option Cliente
  rnds : Nat → Rat
  rnd_idx : Nat
  log_fn : Rat → Rat

/-- `Simulacion.__init__(parametros)` with the given oracles. -/
def mkSim (p : Parametros) (rnds : Nat → Rat) (log_fn : Rat → Rat) : Simulacion :=
  { tiempo_entre_llegadas := p.tiempo_entre_llegadas
    prob_pedir_libro := p.prob_pedir_libro
    prob_devolver_libro := p.prob_devolver_libro
    prob_consultar := p.prob_consultar
    tiempo_consulta_min := p.tiempo_consulta_min
    tiempo_consulta_max := p.tiempo_consulta_max
    prob_retirarse := p.prob_retirarse
    max_iteraciones := p.max_iteraciones
    K_100_200 := p.K_100_200
    K_200_300 := p.K_200_300
    K_300_plus := p.K_300_plus
    media_busqueda := 6
    tiempo_devolucion_min := 3 / 2
    tiempo_devolucion_max := 5 / 2
    paginas_min := 100
    paginas_max := 350
    capacidad_maxima := 20
    tiempo_maximo := 480
    h_euler := 1 / 10
    reloj := 0
    eventos := []
    clientes_activos := []
    cola_espera := []
    clientes_leyendo := []
    empleados := (Empleado.init 1, Empleado.init 2)
    contador_clientes := 0
    numero_fila := 0
    ultimo_reloj := 0
    ac_tiempo_permanencia := 0
    total_clientes_atendidos := 0
    total_clientes_leyendo := 0
    total_clientes_generados := 0
    total_clientes_rechazados := 0
    biblioteca_cerrada := false
    tiempo_biblioteca_cerrada_ac := 0
    tiempo_inicio_cerrada := none
    historial_filas := []
    tablas_euler_clientes := fun _ => none
    clientes := fun _ => none
    rnds := rnds
    rnd_idx := 0
    log_fn := log_fn }

namespace Simulacion

/-- Read a customer object through its reference. -/
def getCliente (s : Simulacion) (cid : Nat) : Cliente :=
  (s.clientes cid).getD clienteDefault

/-- Write back a (mutated) customer object through its reference. -/
def setCliente (s : Simulacion) (c : Cliente) : Simulacion :=
  { s with clientes := fun k => if k = c.id then some c else s.clientes k }

/-- Read a clerk through its reference (ids 1 and 2). -/
def getEmpleado (s : Simulacion) (eid : Nat) : Empleado :=
  if eid = 1 then s.empleados.1 else s.empleados.2

/-- Write back a (mutated) clerk through its reference. -/
def setEmpleado (s : Simulacion) (e : Empleado) : Simulacion :=
  if e.id = 1 then { s with empleados := (e, s.empleados.2) }
  else { s with empleados := (s.empleados.1, e) }

/-- One `random.random()` draw from the oracle stream. -/
def draw (s : Simulacion) : Rat × Simulacion :=
  (s.rnds s.rnd_idx, { s with rnd_idx := s.rnd_idx + 1 })

/-- `determinar_K(num_paginas)`. -/
def determinar_K (s : Simulacion) (num_paginas : Int) : Int :=
  if 100 ≤ num_paginas ∧ num_paginas ≤ 200 then s.K_100_200
  else if 200 < num_paginas ∧ num_paginas ≤ 300 then s.K_200_300
  else s.K_300_plus

/-- `generar_objetivo()`: categorical draw over the three intents. -/
def generar_objetivo (s : Simulacion) : (TipoObjetivo × Rat) × Simulacion :=
  let (rnd, s) := draw s
  if rnd < s.prob_pedir_libro then ((TipoObjetivo.PEDIR_LIBRO, rnd), s)
  else if rnd < s.prob_pedir_libro + s.prob_devolver_libro then
    ((TipoObjetivo.DEVOLVER_LIBRO, rnd), s)
  else ((TipoObjetivo.CONSULTAR, rnd), s)

/-- `generar_tiempo_consulta()`: uniform on the configured range. -/
def generar_tiempo_consulta (s : Simulacion) : (Rat × Rat) × Simulacion :=
  let (rnd, s) := draw s
  ((s.tiempo_consulta_min + (s.tiempo_consulta_max - s.tiempo_consulta_min) * rnd, rnd), s)

/-- `generar_tiempo_busqueda()`: exponential via the `math.log` oracle. -/
def generar_tiempo_busqueda (s : Simulacion) : (Rat × Rat) × Simulacion :=
  let (rnd, s) := draw s
  let media := if s.media_busqueda > 0 then s.media_busqueda else 1 / 1000000
  ((-media * s.log_fn (1 - rnd), rnd), s)

/-- `generar_tiempo_devolucion()`: uniform on the fixed range. -/
def generar_tiempo_devolucion (s : Simulacion) : (Rat × Rat) × Simulacion :=
  let (rnd, s) := draw s
  ((s.tiempo_devolucion_min + (s.tiempo_devolucion_max - s.tiempo_devolucion_min) * rnd, rnd), s)

/-- `agregar_evento(evento)`: `heapq.heappush`. -/
def agregar_evento (s : Simulacion) (evento : Evento) : Simulacion :=
  { s with eventos := heapq.heappush s.eventos evento }

/-- `proximo_evento()`: `heapq.heappop` when events are pending. -/
def proximo_evento (s : Simulacion) : Option (Evento × Simulacion) :=
  (heapq.heappop s.eventos).map (fun p => (p.1, { s with eventos := p.2 }))

/-- `actualizar_tiempo_cerrada()` (defined in the source but never called):
accrue the elapsed closed time and restart the closed interval. -/
def actualizar_tiempo_cerrada (s : Simulacion) : Simulacion :=
  match s.tiempo_inicio_cerrada with
  | some t0 =>
    if s.biblioteca_cerrada then
      { s with
        tiempo_biblioteca_cerrada_ac := s.tiempo_biblioteca_cerrada_ac + (s.reloj - t0)
        tiempo_inicio_cerrada := some s.reloj }
    else s
  | none => s

/-- `_obtener_empleado_libre()`: first free clerk in order 1, 2. -/
def _obtener_empleado_libre (s : Simulacion) : Option Nat :=
  if s.empleados.1.esta_libre then some s.empleados.1.id
  else if s.empleados.2.esta_libre then some s.empleados.2.id
  else none

/-- `_atender_cliente(cliente, empleado)`: draw the service time for the
customer's intent, record it on the customer, occupy the clerk and schedule
the `FIN_ATENCION` event. -/
def _atender_cliente (s : Simulacion) (cid eid : Nat) : Simulacion :=
  let c := getCliente s cid
  let c := { c with estado := "Siendo atendido" }
  let (tc, s) :=
    if c.objetivo = TipoObjetivo.CONSULTAR then
      let ((tiempo_atencion, rnd), s) := generar_tiempo_consulta s
      (({ c with tiempo_consulta := tiempo_atencion, rnd_tiempo_consulta := rnd },
        tiempo_atencion), s)
    else if c.objetivo = TipoObjetivo.PEDIR_LIBRO then
      let ((tiempo_atencion, rnd), s) := generar_tiempo_busqueda s
      (({ c with tiempo_busqueda := tiempo_atencion, rnd_tiempo_busqueda := rnd },
        tiempo_atencion), s)
    else
      let ((tiempo_atencion, rnd), s) := generar_tiempo_devolucion s
      (({ c with tiempo_devolucion := tiempo_atencion, rnd_tiempo_devolucion := rnd },
        tiempo_atencion), s)
  let c := tc.1
  let tiempo_fin := s.reloj + tc.2
  let c :=
    if eid = 1 then { c with fin_atencion_emp1 := some tiempo_fin }
    else { c with fin_atencion_emp2 := some tiempo_fin }
  let s := setCliente s c
  let s := setEmpleado s ((getEmpleado s eid).atender cid tiempo_fin s.reloj)
  agregar_evento s
    { tiempo := tiempo_fin
      tipo := TipoEvento.FIN_ATENCION
      datos := { cliente := some cid, empleado := some eid } }

/-- `_cliente_sale(cliente)`: departure accounting. -/
def _cliente_sale (s : Simulacion) (cid : Nat) : Simulacion :=
  let s :=
    if cid ∈ s.clientes_activos then
      { s with clientes_activos := s.clientes_activos.erase cid }
    else s
  let c := getCliente s cid
  let s :=
    if pyTruthy c.hora_salida then
      { s with ac_tiempo_permanencia :=
          s.ac_tiempo_permanencia + (c.hora_salida.getD 0 - c.hora_llegada) }
    else s
  let s := { s with total_clientes_atendidos := s.total_clientes_atendidos + 1 }
  if s.biblioteca_cerrada = true ∧ s.clientes_activos.length < s.capacidad_maxima then
    { s with biblioteca_cerrada := false, tiempo_inicio_cerrada := none }
  else s

/-- `procesar_llegada_cliente(evento)`: the arrival handler; returns the new
state and the customer recorded into the event's `datos` for the snapshot. -/
def procesar_llegada_cliente (s : Simulacion) : Simulacion × Option Cliente :=
  let s := { s with total_clientes_generados := s.total_clientes_generados + 1 }
  if s.clientes_activos.length ≥ s.capacidad_maxima then
    let s := { s with total_clientes_rechazados := s.total_clientes_rechazados + 1 }
    let proxima_llegada := s.reloj + s.tiempo_entre_llegadas
    let s := agregar_evento s
      { tiempo := proxima_llegada, tipo := TipoEvento.LLEGADA_CLIENTE, datos := {} }
    let cliente_rechazado : Cliente :=
      { id := s.total_clientes_generados
        hora_llegada := s.reloj
        objetivo := TipoObjetivo.CONSULTAR
        rnd_objetivo := 0
        estado := "RECHAZADO" }
    (s, some cliente_rechazado)
  else
    let s := { s with contador_clientes := s.contador_clientes + 1 }
    let (obj, s) := generar_objetivo s
    let cliente : Cliente :=
      { id := s.contador_clientes
        hora_llegada := s.reloj
        objetivo := obj.1
        rnd_objetivo := obj.2 }
    let s := setCliente s cliente
    let s := { s with clientes_activos := s.clientes_activos ++ [cliente.id] }
    let s :=
      if s.clientes_activos.length ≥ s.capacidad_maxima then
        { s with biblioteca_cerrada := true, tiempo_inicio_cerrada := some s.reloj }
      else s
    let s :=
      match _obtener_empleado_libre s with
      | some eid => _atender_cliente s cliente.id eid
      | none =>
        let s := { s with cola_espera := s.cola_espera ++ [cliente.id] }
        setCliente s { (getCliente s cliente.id) with estado := "En cola" }
    let proxima_llegada := s.reloj + s.tiempo_entre_llegadas
    let s := agregar_evento s
      { tiempo := proxima_llegada, tipo := TipoEvento.LLEGADA_CLIENTE, datos := {} }
    (s, some (getCliente s cliente.id))

/-- `procesar_fin_atencion(evento)`: release the clerk; a borrower draws the
leave/stay decision (stay runs the Euler integrator and schedules
`FIN_LECTURA`), other intents depart; finally pull the next queued customer
onto the freed clerk. -/
def procesar_fin_atencion (s : Simulacion) (evento : Evento) : Simulacion × Option Cliente :=
  let cid := evento.datos.cliente.getD 0
  let eid := evento.datos.empleado.getD 0
  let s := setEmpleado s ((getEmpleado s eid).liberar s.reloj).1
  let c := getCliente s cid
  let s :=
    if c.objetivo = TipoObjetivo.PEDIR_LIBRO then
      let (rnd_decision, s) := draw s
      let c := { c with rnd_decision := some rnd_decision }
      if rnd_decision < s.prob_retirarse then
        let c := { c with
          se_retira := true
          estado := "Fuera del sistema"
          hora_salida := some s.reloj }
        let s := setCliente s c
        _cliente_sale s cid
      else
        let c := { c with se_retira := false, estado := "Leyendo" }
        let (rnd_paginas, s) := draw s
        let paginas : Int :=
          pyInt ((s.paginas_min : Rat) + ((s.paginas_max : Rat) - (s.paginas_min : Rat)) * rnd_paginas)
        let c := { c with rnd_paginas := some rnd_paginas, paginas_a_leer := paginas }
        let K := determinar_K s paginas
        let integrador := IntegradorEuler.init s.h_euler K 0
        let res := integrador.integrar_hasta_paginas (paginas : Rat)
        let fin_lectura := s.reloj + res.1
        let c := { c with
          tiempo_lectura := res.1
          fin_lectura := some fin_lectura
          tabla_euler := some res.2.tabla_euler }
        let s := setCliente s c
        let s := { s with tablas_euler_clientes :=
          fun k => if k = cid then some res.2.tabla_euler else s.tablas_euler_clientes k }
        let s := { s with
          clientes_leyendo := s.clientes_leyendo ++ [cid]
          total_clientes_leyendo := s.total_clientes_leyendo + 1 }
        agregar_evento s
          { tiempo := fin_lectura
            tipo := TipoEvento.FIN_LECTURA
            datos := { cliente := some cid } }
    else
      let c := { c with estado := "Fuera del sistema", hora_salida := some s.reloj }
      let s := setCliente s c
      _cliente_sale s cid
  let s :=
    if s.cola_espera ≠ [] ∧ (getEmpleado s eid).esta_libre = true then
      match s.cola_espera with
      | [] => s
      | siguiente :: resto => _atender_cliente { s with cola_espera := resto } siguiente eid
    else s
  (s, some (getCliente s cid))

/-- `procesar_fin_lectura(evento)`: the finished reader leaves the reading
set, becomes a Return-intent customer and is served immediately or queued. -/
def procesar_fin_lectura (s : Simulacion) (evento : Evento) : Simulacion × Option Cliente :=
  let cid := evento.datos.cliente.getD 0
  let s :=
    if cid ∈ s.clientes_leyendo then
      { s with clientes_leyendo := s.clientes_leyendo.erase cid }
    else s
  let s := setCliente s { (getCliente s cid) with objetivo := TipoObjetivo.DEVOLVER_LIBRO }
  let s :=
    match _obtener_empleado_libre s with
    | some eid =>
      let s := setCliente s { (getCliente s cid) with estado := "Siendo atendido" }
      _atender_cliente s cid eid
    | none =>
      let s := setCliente s { (getCliente s cid) with estado := "En cola" }
      { s with cola_espera := s.cola_espera ++ [cid] }
  (s, some (getCliente s cid))

/-- `_capturar_estado(evento)`: assemble a snapshot row from the current
state (see `Fila`). -/
def _capturar_estado (s : Simulacion) (evento : Evento) (cliente_actual : Option Cliente) :
    Fila :=
  let proximos := (s.eventos.insertionSort evLE).take 3
  let proxima_llegada :=
    (proximos.find? (fun e => decide (e.tipo = TipoEvento.LLEGADA_CLIENTE))).map
      (fun e => e.tiempo)
  { n := s.numero_fila
    evento_tipo := evento.tipo
    evento_cliente :=
      if evento.tipo = TipoEvento.INICIALIZACION then none
      else cliente_actual.map (fun c => c.id)
    reloj := s.reloj
    proxima_llegada :=
      if evento.tipo = TipoEvento.INICIALIZACION then some s.tiempo_entre_llegadas
      else proxima_llegada
    empleado1_estado := s.empleados.1.estado
    empleado1_ac_atencion := s.empleados.1.tiempo_acumulado_atencion
    empleado1_ac_ocioso := s.empleados.1.tiempo_acumulado_ocioso
    empleado2_estado := s.empleados.2.estado
    empleado2_ac_atencion := s.empleados.2.tiempo_acumulado_atencion
    empleado2_ac_ocioso := s.empleados.2.tiempo_acumulado_ocioso
    estado_biblioteca_cerrada := s.biblioteca_cerrada
    cola := s.cola_espera.length
    ac_tiempo_permanencia := s.ac_tiempo_permanencia
    ac_clientes_leyendo := s.total_clientes_leyendo
    clientes := s.clientes_activos.map (getCliente s) }

/-- `iniciar()`: record the initialization row and schedule the first
arrival. -/
def iniciar (s : Simulacion) : Simulacion :=
  let s := { s with numero_fila := 0 }
  let fila := _capturar_estado s
    { tiempo := 0, tipo := TipoEvento.INICIALIZACION, datos := {} } none
  let s := { s with historial_filas := s.historial_filas ++ [fila] }
  let s := { s with numero_fila := s.numero_fila + 1 }
  let s := { s with ultimo_reloj := 0 }
  agregar_evento s
    { tiempo := s.tiempo_entre_llegadas, tipo := TipoEvento.LLEGADA_CLIENTE, datos := {} }

/-- `ejecutar_paso()`: one engine step.  Returns the recorded row (`none`
signals termination: the iteration cap was exceeded or the FEL is empty). -/
def ejecutar_paso (s : Simulacion) : Option Fila × Simulacion :=
  if s.numero_fila > s.max_iteraciones then
    let s :=
      if s.biblioteca_cerrada = true ∧ s.tiempo_inicio_cerrada ≠ none then
        { s with tiempo_biblioteca_cerrada_ac :=
            s.tiempo_biblioteca_cerrada_ac + (s.tiempo_maximo - s.reloj) }
      else s
    let fila := _capturar_estado s
      { tiempo := s.reloj, tipo := TipoEvento.FIN_SIMULACION, datos := {} } none
    let s := { s with historial_filas := s.historial_filas ++ [fila] }
    (none, s)
  else
    match proximo_evento s with
    | none => (none, s)
    | some (evento, s) =>
      let s :=
        if s.reloj > s.tiempo_maximo ∧ s.tiempo_inicio_cerrada ≠ none then
          { s with tiempo_biblioteca_cerrada_ac :=
              s.tiempo_biblioteca_cerrada_ac + (evento.tiempo - s.reloj) }
        else s
      let s := { s with reloj := evento.tiempo, ultimo_reloj := evento.tiempo }
      let sc :=
        if evento.tipo = TipoEvento.LLEGADA_CLIENTE then procesar_llegada_cliente s
        else if evento.tipo = TipoEvento.FIN_ATENCION then procesar_fin_atencion s evento
        else if evento.tipo = TipoEvento.FIN_LECTURA then procesar_fin_lectura s evento
        else (s, none)
      let s := sc.1
      let fila := _capturar_estado s evento sc.2
      let s := { s with historial_filas := s.historial_filas ++ [fila] }
      let s := { s with numero_fila := s.numero_fila + 1 }
      (some fila, s)

/-- Iterate `ejecutar_paso` a fixed number of times (used to reason about
every reachable state of a run). -/
def ejecutar_pasos : Nat → Simulacion → Simulacion
  | 0, s => s
  | n + 1, s => ejecutar_pasos n (ejecutar_paso s).2

/-- The `while True` loop of `ejecutar_completa`, with fuel.  Every processed
event increments `numero_fila`, so `max_iteraciones + 2` iterations always
reach the `None` step (proved below); the fuel is never exhausted. -/
def runLoop : Nat → Simulacion → Simulacion
  | 0, s => s
  | fuel + 1, s =>
    match ejecutar_paso s with
    | (none, s') => s'
    | (some _, s') => runLoop fuel s'

/-- `ejecutar_completa()`: `iniciar` then step until termination. -/
def ejecutar_completa (s : Simulacion) : Simulacion :=
  runLoop (s.max_iteraciones + 2) (iniciar s)

end Simulacion

/-! ## Integrator lemmas -/

namespace IntegradorEuler

theorem paso_h (ig : IntegradorEuler) : ig.paso.h = ig.h := rfl

theorem paso_K (ig : IntegradorEuler) : ig.paso.K = ig.K := rfl

theorem paso_p (ig : IntegradorEuler) : ig.paso.p = ig.p + ig.h * ((ig.K : Rat) / 5) := rfl

theorem paso_t (ig : IntegradorEuler) : ig.paso.t = ig.t + ig.h := rfl

theorem paso_tabla_len (ig : IntegradorEuler) :
    ig.paso.tabla_euler.length = ig.tabla_euler.length + 1 := by
  show (ig.tabla_euler ++ [_]).length = _
  simp

theorem integrarLoop_stop (objetivo : Rat) (fuel : Nat) (ig : IntegradorEuler)
    (h : ¬ ig.p < objetivo) : integrarLoop objetivo fuel ig = ig := by
  cases fuel with
  | zero => rfl
  | succ n => simp [integrarLoop, h]

theorem integrarLoop_step (objetivo : Rat) (fuel : Nat) (ig : IntegradorEuler)
    (h : ig.p < objetivo) :
    integrarLoop objetivo (fuel + 1) ig = integrarLoop objetivo fuel ig.paso := by
  simp [integrarLoop, h]

/-- Closed form of the loop when the per-step increment is constant and the
target is first reached after exactly `N` steps. -/
theorem integrarLoop_const (objetivo : Rat) :
    ∀ (N fuel : Nat) (ig : IntegradorEuler),
      N ≤ fuel →
      objetivo ≤ ig.p + (N : Rat) * (ig.h * ((ig.K : Rat) / 5)) →
      (∀ k : Nat, k < N → ig.p + (k : Rat) * (ig.h * ((ig.K : Rat) / 5)) < objetivo) →
      (integrarLoop objetivo fuel ig).t = ig.t + (N : Rat) * ig.h ∧
      (integrarLoop objetivo fuel ig).p
        = ig.p + (N : Rat) * (ig.h * ((ig.K : Rat) / 5)) := by
  intro N
  induction N with
  | zero =>
    intro fuel ig _ hN _hN'
    have hstop : ¬ ig.p < objetivo := by
      push_cast at hN
      intro hc
      linarith
    rw [integrarLoop_stop objetivo fuel ig hstop]
    constructor <;> push_cast <;> ring
  | succ n ih =>
    intro fuel ig hfuel hN hN'
    cases fuel with
    | zero => omega
    | succ f =>
      have hlt : ig.p < objetivo := by
        have h0 := hN' 0 (Nat.succ_pos n)
        push_cast at h0
        linarith
      rw [integrarLoop_step objetivo f ig hlt]
      obtain ⟨ht, hp⟩ := ih f ig.paso (by omega)
        (by
          rw [paso_p, paso_h, paso_K]
          push_cast at hN ⊢
          linarith [hN])
        (by
          intro k hk
          have hk1 := hN' (k + 1) (by omega)
          rw [paso_p, paso_h, paso_K]
          push_cast at hk1 ⊢
          linarith [hk1])
      rw [ht, hp, paso_p, paso_t, paso_h, paso_K]
      constructor <;> push_cast <;> ring

/-- With a non-positive rate the pages never advance; the loop runs through
all its fuel, adding `h` to the clock each iteration and one table row per
step. -/
theorem integrarLoop_nonpos (objetivo : Rat) :
    ∀ (fuel : Nat) (ig : IntegradorEuler), ig.K ≤ 0 → 0 < ig.h → ig.p ≤ 0 → 0 < objetivo →
      (integrarLoop objetivo fuel ig).t = ig.t + (fuel : Rat) * ig.h ∧
      (integrarLoop objetivo fuel ig).p ≤ 0 ∧
      (integrarLoop objetivo fuel ig).tabla_euler.length
        = ig.tabla_euler.length + fuel := by
  intro fuel
  induction fuel with
  | zero =>
    intro ig _ _ hp _
    refine ⟨?_, hp, by simp [integrarLoop]⟩
    show ig.t = ig.t + ((0 : Nat) : Rat) * ig.h
    push_cast
    ring
  | succ n ih =>
    intro ig hK hh hp hobj
    have hlt : ig.p < objetivo := lt_of_le_of_lt hp hobj
    rw [integrarLoop_step objetivo n ig hlt]
    have hKr : ((ig.K : Rat) / 5) ≤ 0 := by
      apply div_nonpos_of_nonpos_of_nonneg
      · exact_mod_cast hK
      · norm_num
    have hd : ig.h * ((ig.K : Rat) / 5) ≤ 0 :=
      mul_nonpos_of_nonneg_of_nonpos (le_of_lt hh) hKr
    have hp' : ig.paso.p ≤ 0 := by
      rw [paso_p]
      linarith
    obtain ⟨h1, h2, h3⟩ := ih ig.paso (by rw [paso_K]; exact hK)
      (by rw [paso_h]; exact hh) hp' hobj
    refine ⟨?_, h2, ?_⟩
    · rw [h1, paso_t, paso_h]
      push_cast
      ring
    · rw [h3, paso_tabla_len]
      omega

/-- The iteration cap used by `integrar_hasta_paginas` for target 150 pages
and step 0.1. -/
theorem maxPasos_150_01 : (pyInt ((150 : Rat) / ((1 : Rat) / 10) * (3 / 2))).toNat = 2250 := by
  have harg : (150 : Rat) / ((1 : Rat) / 10) * (3 / 2) = ((2250 : Int) : Rat) := by
    norm_num
  rw [pyInt, harg, if_pos (by norm_num), Int.floor_intCast]
  rfl

end IntegradorEuler

/-! ## Claim C2 -/

/-- C2: for the Euler integrator with rate K = 100, step h = 0.1, initial
pages 0 and target 150 pages, `integrar_hasta_paginas` returns elapsed time
exactly 7.5 minutes (in exact arithmetic, 15/2 = 7.5 = 150 / (100 / 5)): the
increment per step is h·K/5 = 2 pages, the target is reached after exactly 75
steps, well under the cap of 2250, and 75 · 0.1 = 7.5. -/
theorem C2_tiempo_lectura_euler_exacto :
    ((IntegradorEuler.init (1 / 10) 100 0).integrar_hasta_paginas 150).1 = 15 / 2 := by
  show (IntegradorEuler.integrarLoop 150
      (pyInt ((150 : Rat) / ((1 : Rat) / 10) * (3 / 2))).toNat
      (IntegradorEuler.init (1 / 10) 100 0)).t = 15 / 2
  rw [IntegradorEuler.maxPasos_150_01]
  obtain ⟨ht, _⟩ := IntegradorEuler.integrarLoop_const 150 75 2250
    (IntegradorEuler.init (1 / 10) 100 0) (by omega)
    (by
      show (150 : Rat) ≤ 0 + 75 * ((1 / 10) * (((100 : Int) : Rat) / 5))
      norm_num)
    (by
      intro k hk
      show (0 : Rat) + k * ((1 / 10) * (((100 : Int) : Rat) / 5)) < 150
      have hk' : (k : Rat) ≤ 74 := by exact_mod_cast Nat.lt_succ_iff.mp hk
      push_cast
      nlinarith)
  rw [ht]
  show (0 : Rat) + 75 * (1 / 10) = 15 / 2
  norm_num

/-! ## Claim C3 -/

namespace IntegradorEuler

theorem init_h (h : Rat) (K : Int) (p0 : Rat) : (init h K p0).h = h := rfl

theorem init_t (h : Rat) (K : Int) (p0 : Rat) : (init h K p0).t = 0 := rfl

theorem init_tabla_len (h : Rat) (K : Int) (p0 : Rat) :
    (init h K p0).tabla_euler.length = 1 := rfl

end IntegradorEuler

/-- C3 (amended): for every non-positive rate K ≤ 0 (with positive step h,
positive target and initial pages 0), the loop of `integrar_hasta_paginas`
never reaches the target, but it nevertheless terminates: the iteration cap
`max_pasos = int(target / h · 1.5)` stops it after exactly that many steps,
and the returned elapsed time is `max_pasos · h`. -/
theorem C3_tasa_no_positiva_detenida_por_cap (K : Int) (h objetivo : Rat)
    (hK : K ≤ 0) (hh : 0 < h) (hobj : 0 < objetivo) :
    ((IntegradorEuler.init h K 0).integrar_hasta_paginas objetivo).1
        = ((pyInt (objetivo / h * (3 / 2))).toNat : Rat) * h ∧
      ((IntegradorEuler.init h K 0).integrar_hasta_paginas objetivo).2.p ≤ 0 ∧
      ((IntegradorEuler.init h K 0).integrar_hasta_paginas objetivo).2.pasos_dados
        = (pyInt (objetivo / h * (3 / 2))).toNat := by
  have einit : (IntegradorEuler.init h K 0).h = h := rfl
  have e1 : ((IntegradorEuler.init h K 0).integrar_hasta_paginas objetivo).1
      = (IntegradorEuler.integrarLoop objetivo
          (pyInt (objetivo / (IntegradorEuler.init h K 0).h * (3 / 2))).toNat
          (IntegradorEuler.init h K 0)).t := rfl
  have e2 : ((IntegradorEuler.init h K 0).integrar_hasta_paginas objetivo).2
      = IntegradorEuler.integrarLoop objetivo
          (pyInt (objetivo / (IntegradorEuler.init h K 0).h * (3 / 2))).toNat
          (IntegradorEuler.init h K 0) := rfl
  have e3 : ∀ ig : IntegradorEuler, ig.pasos_dados = ig.tabla_euler.length - 1 :=
    fun _ => rfl
  rw [einit] at e1 e2
  obtain ⟨h1, h2, h3⟩ := IntegradorEuler.integrarLoop_nonpos objetivo
    ((pyInt (objetivo / h * (3 / 2))).toNat) (IntegradorEuler.init h K 0) hK hh
    (le_refl 0) hobj
  rw [IntegradorEuler.init_t, IntegradorEuler.init_h] at h1
  rw [IntegradorEuler.init_tabla_len] at h3
  refine ⟨?_, ?_, ?_⟩
  · rw [e1, h1]
    ring
  · rw [e2]
    exact h2
  · rw [e2, e3, h3]
    omega

/-- C3 counterexample: at the explicit input K = 0, h = 0.1, target = 150 the
loop terminates (contradicting the claim that it does not): it stops at the
cap after exactly 2250 steps, still short of the target, and returns
t = 2250 · 0.1 = 225. -/
theorem C3_contraejemplo_termina_en_cap :
    ((IntegradorEuler.init (1 / 10) 0 0).integrar_hasta_paginas 150).1 = 225 ∧
    ((IntegradorEuler.init (1 / 10) 0 0).integrar_hasta_paginas 150).2.p < 150 ∧
    ((IntegradorEuler.init (1 / 10) 0 0).integrar_hasta_paginas 150).2.pasos_dados
      = 2250 := by
  have einit : (IntegradorEuler.init (1 / 10) 0 0).h = (1 : Rat) / 10 := rfl
  have e1 : ((IntegradorEuler.init (1 / 10) 0 0).integrar_hasta_paginas 150).1
      = (IntegradorEuler.integrarLoop 150
          (pyInt (150 / (IntegradorEuler.init (1 / 10) 0 0).h * (3 / 2))).toNat
          (IntegradorEuler.init (1 / 10) 0 0)).t := rfl
  have e2 : ((IntegradorEuler.init (1 / 10) 0 0).integrar_hasta_paginas 150).2
      = IntegradorEuler.integrarLoop 150
          (pyInt (150 / (IntegradorEuler.init (1 / 10) 0 0).h * (3 / 2))).toNat
          (IntegradorEuler.init (1 / 10) 0 0) := rfl
  have e3 : ∀ ig : IntegradorEuler, ig.pasos_dados = ig.tabla_euler.length - 1 :=
    fun _ => rfl
  rw [einit] at e1 e2
  rw [IntegradorEuler.maxPasos_150_01] at e1 e2
  obtain ⟨h1, h2, h3⟩ := IntegradorEuler.integrarLoop_nonpos 150 2250
    (IntegradorEuler.init (1 / 10) 0 0) (le_refl 0)
    (by rw [IntegradorEuler.init_h]; norm_num)
    (le_refl 0) (by norm_num)
  rw [IntegradorEuler.init_t, IntegradorEuler.init_h] at h1
  rw [IntegradorEuler.init_tabla_len] at h3
  refine ⟨?_, ?_, ?_⟩
  · rw [e1, h1]
    norm_num
  · rw [e2]
    linarith
  · rw [e2, e3, h3]

/-- C3 witness: the amended theorem applied at the concrete input K = 0,
h = 0.1, target = 150, discharging the hypotheses there. -/
theorem C3_tasa_no_positiva_detenida_por_cap_witness :
    (0 : Int) ≤ 0 ∧ (0 : Rat) < 1 / 10 ∧ (0 : Rat) < 150 ∧
    ((IntegradorEuler.init (1 / 10) 0 0).integrar_hasta_paginas 150).1
        = ((pyInt ((150 : Rat) / (1 / 10) * (3 / 2))).toNat : Rat) * (1 / 10) :=
  ⟨le_refl 0, by norm_num, by norm_num,
    (C3_tasa_no_positiva_detenida_por_cap 0 (1 / 10) 150 (le_refl 0) (by norm_num)
      (by norm_num)).1⟩

/-! ## Claim C6 -/

/-- C6: for every sequence of pushes into the future-event list, the sequence
of events returned by successive pop-min calls has non-decreasing timestamps;
this holds both for the heap-based FEL of the engine
(`heapq.heappush`/`heapq.heappop`) and for the sorted-list FEL of eventos.py
(`agregar_evento`/`proximo_evento`). -/
theorem C6_pops_con_tiempos_no_decrecientes (pushes : List Evento) :
    List.Sorted (· ≤ ·)
      ((heapq.popAll (pushes.foldl heapq.heappush [])).map (fun e => e.tiempo)) ∧
    List.Sorted (· ≤ ·)
      ((Eventos.popAll (pushes.foldl Eventos.agregar_evento { eventos := [] })).map
        (fun e => e.tiempo)) := by
  have hmap : ∀ l : List Evento, List.Sorted evLE l →
      List.Sorted (· ≤ ·) (l.map (fun e => e.tiempo)) := by
    intro l hl
    rw [List.Sorted, List.pairwise_map]
    exact hl
  constructor
  · exact hmap _
      (heapq.popAll_sorted _ (heapq.foldl_heappush_heapInv pushes [] heapq.heapInv_nil))
  · rw [Eventos.popAll_eq_eventos]
    exact hmap _
      (Eventos.foldl_agregar_evento pushes { eventos := [] } List.sorted_nil).1

/-! ## Claim C7 -/

/-- C7 counterexample: the heap-based FEL does not break timestamp ties by
insertion order.  Pushing one event at t = 1 and then three events at t = 2
(tagged 2, 3, 4 in insertion order through their payload), the pops return
the t = 2 events in order 3, 2, 4 — not the insertion order 2, 3, 4 asserted
by the claim. -/
theorem C7_contraejemplo_heap_sin_estabilidad :
    (heapq.popAll
        ([{ tiempo := 1, tipo := TipoEvento.LLEGADA_CLIENTE, datos := { cliente := some 1 } },
          { tiempo := 2, tipo := TipoEvento.LLEGADA_CLIENTE, datos := { cliente := some 2 } },
          { tiempo := 2, tipo := TipoEvento.LLEGADA_CLIENTE, datos := { cliente := some 3 } },
          { tiempo := 2, tipo := TipoEvento.LLEGADA_CLIENTE, datos := { cliente := some 4 } }].foldl
          heapq.heappush [])).map (fun e => e.datos.cliente)
      = [some 1, some 3, some 2, some 4] ∧
    [some 1, some 3, some 2, some 4] ≠ ([some 1, some 2, some 3, some 4] : List (Option Nat)) := by
  constructor
  · with_unfolding_all decide
  · decide

/-- C7 (amended): the sorted-list FEL of eventos.py is ordered by timestamp
ascending and breaks ties by insertion order: after any sequence of pushes the
pop order is sorted, and for every timestamp t the subsequence of events with
timestamp t equals the subsequence of the pushes with timestamp t, in push
order.  (The heap-based FEL of the engine guarantees only the timestamp
ordering, not insertion-order ties — see the counterexample.) -/
theorem C7_lista_fel_ordenada_y_estable (pushes : List Evento) :
    List.Sorted evLE
      (Eventos.popAll (pushes.foldl Eventos.agregar_evento { eventos := [] })) ∧
    ∀ t : Rat,
      (Eventos.popAll (pushes.foldl Eventos.agregar_evento { eventos := [] })).filter
          (Eventos.mismaHora t)
        = pushes.filter (Eventos.mismaHora t) := by
  rw [Eventos.popAll_eq_eventos]
  obtain ⟨h1, h2⟩ := Eventos.foldl_agregar_evento pushes { eventos := [] } List.sorted_nil
  refine ⟨h1, ?_⟩
  intro t
  rw [h2 t]
  rfl

/-! ## Claim C8 -/

/-- The spinbox values read by `ConfiguracionWindow.aceptar`; defaults are the
spinbox initial values. -/
structure ConfiguracionValores where
  tiempo_entre_llegadas : Rat := 4
  prob_pedir : Rat := 9 / 20
  prob_devolver : Rat := 9 / 20
  prob_consultar : Rat := 1 / 10
  cons_min : Rat := 2
  cons_max : Rat := 5
  prob_retirarse : Rat := 3 / 5
  K_100_200 : Int := 100
  K_200_300 : Int := 90
  K_300_plus : Int := 70
  max_iteraciones : Nat := 10000
deriving DecidableEq, Repr, Inhabited

/-- `ConfiguracionWindow.aceptar` (gui_pyqt5.py lines 717-748): validate and
build the parameter dictionary.  `none` models the early `return` after the
error dialog: no parameters are produced, so no `Simulacion` is ever
constructed from them.  The probability check is
`math.isclose(sum, 1.0, abs_tol=0.001)` (the default `rel_tol = 1e-9`
remains). -/
def ConfiguracionWindow_aceptar (v : ConfiguracionValores) : Option Parametros :=
  if ¬ mathIsclose (v.prob_pedir + v.prob_devolver + v.prob_consultar) 1
      (1 / 1000000000) (1 / 1000) then
    none
  else if v.cons_min > v.cons_max then
    none
  else
    some
      { tiempo_entre_llegadas := v.tiempo_entre_llegadas
        prob_pedir_libro := v.prob_pedir
        prob_devolver_libro := v.prob_devolver
        prob_consultar := v.prob_consultar
        tiempo_consulta_min := v.cons_min
        tiempo_consulta_max := v.cons_max
        prob_retirarse := v.prob_retirarse
        K_100_200 := v.K_100_200
        K_200_300 := v.K_200_300
        K_300_plus := v.K_300_plus
        max_iteraciones := v.max_iteraciones }

/-- For values in the spinbox ranges the `math.isclose` test degenerates to
the absolute tolerance: the relative term is at most 3·10⁻⁹ < 10⁻³. -/
theorem isclose_abs_tol (a : Rat) (ha : 0 ≤ a) (ha3 : a ≤ 3) :
    mathIsclose a 1 (1 / 1000000000) (1 / 1000) ↔ |a - 1| ≤ 1 / 1000 := by
  unfold mathIsclose
  rw [abs_of_nonneg ha, abs_one]
  have h3 : max a 1 ≤ 3 := max_le ha3 (by norm_num)
  have h4 : (1 / 1000000000 : Rat) * max a 1 ≤ 1 / 1000 := by nlinarith
  rw [max_eq_right h4]

/-- C8: configuration validation rejects exactly the parameter sets whose
three intent probabilities do not sum to 1 within absolute tolerance 0.001 or
whose consultation-duration minimum exceeds the maximum (probabilities range
over the spinbox interval [0, 1]); rejection produces no parameter set at all
— so the engine is never started and no simulation state exists to be mutated
— and a valid set is accepted, yielding exactly the entered parameters. -/
theorem C8_validacion_configuracion (v : ConfiguracionValores)
    (h1 : 0 ≤ v.prob_pedir) (h1' : v.prob_pedir ≤ 1)
    (h2 : 0 ≤ v.prob_devolver) (h2' : v.prob_devolver ≤ 1)
    (h3 : 0 ≤ v.prob_consultar) (h3' : v.prob_consultar ≤ 1) :
    (ConfiguracionWindow_aceptar v = none ↔
      |v.prob_pedir + v.prob_devolver + v.prob_consultar - 1| > 1 / 1000 ∨
        v.cons_min > v.cons_max) ∧
    (|v.prob_pedir + v.prob_devolver + v.prob_consultar - 1| ≤ 1 / 1000 →
      v.cons_min ≤ v.cons_max →
      ConfiguracionWindow_aceptar v
        = some
          { tiempo_entre_llegadas := v.tiempo_entre_llegadas
            prob_pedir_libro := v.prob_pedir
            prob_devolver_libro := v.prob_devolver
            prob_consultar := v.prob_consultar
            tiempo_consulta_min := v.cons_min
            tiempo_consulta_max := v.cons_max
            prob_retirarse := v.prob_retirarse
            K_100_200 := v.K_100_200
            K_200_300 := v.K_200_300
            K_300_plus := v.K_300_plus
            max_iteraciones := v.max_iteraciones }) := by
  have hclose := isclose_abs_tol (v.prob_pedir + v.prob_devolver + v.prob_consultar)
    (by linarith) (by linarith)
  constructor
  · unfold ConfiguracionWindow_aceptar
    by_cases hc : mathIsclose (v.prob_pedir + v.prob_devolver + v.prob_consultar) 1
        (1 / 1000000000) (1 / 1000)
    · rw [if_neg (by simpa using hc)]
      by_cases hr : v.cons_min > v.cons_max
      · rw [if_pos hr]
        simp only [true_iff]
        exact Or.inr hr
      · rw [if_neg hr]
        apply iff_of_false
        · intro hcon
          exact Option.noConfusion hcon
        · rw [not_or]
          exact ⟨not_lt.mpr (hclose.mp hc), hr⟩
    · rw [if_pos (by simpa using hc)]
      simp only [true_iff]
      exact Or.inl (not_le.mp (fun hle => hc (hclose.mpr hle)))
  · intro hsum hrange
    unfold ConfiguracionWindow_aceptar
    rw [if_neg (by simpa using hclose.mpr hsum), if_neg (not_lt.mpr hrange)]

/-- C8 witness: the theorem applied at the default spinbox values, whose
probabilities sum to exactly 1 and whose range is valid, so they are
accepted. -/
theorem C8_validacion_configuracion_witness :
    (0 : Rat) ≤ 9 / 20 ∧ (9 / 20 : Rat) ≤ 1 ∧ (0 : Rat) ≤ 1 / 10 ∧ (1 / 10 : Rat) ≤ 1 ∧
    (ConfiguracionWindow_aceptar {} = none ↔
      |(9 / 20 : Rat) + 9 / 20 + 1 / 10 - 1| > 1 / 1000 ∨ (2 : Rat) > 5) := by
  refine ⟨by norm_num, by norm_num, by norm_num, by norm_num, ?_⟩
  exact (C8_validacion_configuracion {} (by norm_num) (by norm_num) (by norm_num)
    (by norm_num) (by norm_num) (by norm_num)).1

/-! ## Frame lemmas for the engine's state helpers -/

namespace Simulacion

theorem setCliente_eventos (s : Simulacion) (c : Cliente) :
    (s.setCliente c).eventos = s.eventos := rfl

theorem setCliente_empleados (s : Simulacion) (c : Cliente) :
    (s.setCliente c).empleados = s.empleados := rfl

theorem setCliente_clientes_activos (s : Simulacion) (c : Cliente) :
    (s.setCliente c).clientes_activos = s.clientes_activos := rfl

theorem setCliente_cola_espera (s : Simulacion) (c : Cliente) :
    (s.setCliente c).cola_espera = s.cola_espera := rfl

theorem setCliente_clientes_leyendo (s : Simulacion) (c : Cliente) :
    (s.setCliente c).clientes_leyendo = s.clientes_leyendo := rfl

theorem setCliente_reloj (s : Simulacion) (c : Cliente) :
    (s.setCliente c).reloj = s.reloj := rfl

theorem setEmpleado_eventos (s : Simulacion) (e : Empleado) :
    (s.setEmpleado e).eventos = s.eventos := by
  unfold setEmpleado
  split <;> rfl

theorem setEmpleado_clientes (s : Simulacion) (e : Empleado) :
    (s.setEmpleado e).clientes = s.clientes := by
  unfold setEmpleado
  split <;> rfl

theorem setEmpleado_clientes_activos (s : Simulacion) (e : Empleado) :
    (s.setEmpleado e).clientes_activos = s.clientes_activos := by
  unfold setEmpleado
  split <;> rfl

theorem setEmpleado_cola_espera (s : Simulacion) (e : Empleado) :
    (s.setEmpleado e).cola_espera = s.cola_espera := by
  unfold setEmpleado
  split <;> rfl

theorem setEmpleado_clientes_leyendo (s : Simulacion) (e : Empleado) :
    (s.setEmpleado e).clientes_leyendo = s.clientes_leyendo := by
  unfold setEmpleado
  split <;> rfl

theorem setEmpleado_reloj (s : Simulacion) (e : Empleado) :
    (s.setEmpleado e).reloj = s.reloj := by
  unfold setEmpleado
  split <;> rfl

theorem agregar_evento_eventos (s : Simulacion) (e : Evento) :
    (s.agregar_evento e).eventos = heapq.heappush s.eventos e := rfl

theorem agregar_evento_empleados (s : Simulacion) (e : Evento) :
    (s.agregar_evento e).empleados = s.empleados := rfl

theorem draw_fst (s : Simulacion) : (s.draw).1 = s.rnds s.rnd_idx := rfl

theorem draw_snd_empleados (s : Simulacion) : (s.draw).2.empleados = s.empleados := rfl

theorem draw_snd_eventos (s : Simulacion) : (s.draw).2.eventos = s.eventos := rfl

end Simulacion

namespace Empleado

theorem atender_id (e : Empleado) (c : Nat) (tf r : Rat) : (e.atender c tf r).id = e.id := by
  unfold atender
  split <;> rfl

end Empleado

namespace Simulacion

theorem agregar_evento_clientes_activos (s : Simulacion) (e : Evento) :
    (s.agregar_evento e).clientes_activos = s.clientes_activos := rfl

theorem agregar_evento_cola_espera (s : Simulacion) (e : Evento) :
    (s.agregar_evento e).cola_espera = s.cola_espera := rfl

theorem agregar_evento_clientes_leyendo (s : Simulacion) (e : Evento) :
    (s.agregar_evento e).clientes_leyendo = s.clientes_leyendo := rfl

theorem agregar_evento_reloj (s : Simulacion) (e : Evento) :
    (s.agregar_evento e).reloj = s.reloj := rfl

theorem setEmpleado_empleados_congr (s1 s2 : Simulacion) (e : Empleado)
    (h : s1.empleados = s2.empleados) :
    (s1.setEmpleado e).empleados = (s2.setEmpleado e).empleados := by
  unfold setEmpleado
  split_ifs <;> simp [h]

theorem atender_cliente_frame (s : Simulacion) (cid eid : Nat) :
    (s._atender_cliente cid eid).clientes_activos = s.clientes_activos ∧
    (s._atender_cliente cid eid).cola_espera = s.cola_espera ∧
    (s._atender_cliente cid eid).clientes_leyendo = s.clientes_leyendo ∧
    (s._atender_cliente cid eid).reloj = s.reloj ∧
    ∃ tf : Rat,
      (s._atender_cliente cid eid).empleados
          = (s.setEmpleado ((s.getEmpleado eid).atender cid tf s.reloj)).empleados ∧
      (s._atender_cliente cid eid).eventos
          = heapq.heappush s.eventos
              { tiempo := tf, tipo := TipoEvento.FIN_ATENCION,
                datos := { cliente := some cid, empleado := some eid } } := by
  unfold _atender_cliente
  dsimp only
  by_cases h1 : (getCliente s cid).objetivo = TipoObjetivo.CONSULTAR
  · rw [if_pos h1]
    dsimp only [generar_tiempo_consulta, draw]
    refine ⟨?_, ?_, ?_, ?_, ?_⟩
    · rw [agregar_evento_clientes_activos, setEmpleado_clientes_activos]
      rfl
    · rw [agregar_evento_cola_espera, setEmpleado_cola_espera]
      rfl
    · rw [agregar_evento_clientes_leyendo, setEmpleado_clientes_leyendo]
      rfl
    · rw [agregar_evento_reloj, setEmpleado_reloj]
      rfl
    · refine ⟨?tf1, ?he1, ?hv1⟩
      case he1 =>
        rw [agregar_evento_empleados]
        refine setEmpleado_empleados_congr _ _ _ ?_
        rfl
      case hv1 =>
        rw [agregar_evento_eventos, setEmpleado_eventos]
        rfl
  · rw [if_neg h1]
    by_cases h2 : (getCliente s cid).objetivo = TipoObjetivo.PEDIR_LIBRO
    · rw [if_pos h2]
      dsimp only [generar_tiempo_busqueda, draw]
      refine ⟨?_, ?_, ?_, ?_, ?_⟩
      · rw [agregar_evento_clientes_activos, setEmpleado_clientes_activos]
        rfl
      · rw [agregar_evento_cola_espera, setEmpleado_cola_espera]
        rfl
      · rw [agregar_evento_clientes_leyendo, setEmpleado_clientes_leyendo]
        rfl
      · rw [agregar_evento_reloj, setEmpleado_reloj]
        rfl
      · refine ⟨?tf2, ?he2, ?hv2⟩
        case he2 =>
          rw [agregar_evento_empleados]
          refine setEmpleado_empleados_congr _ _ _ ?_
          rfl
        case hv2 =>
          rw [agregar_evento_eventos, setEmpleado_eventos]
          rfl
    · rw [if_neg h2]
      dsimp only [generar_tiempo_devolucion, draw]
      refine ⟨?_, ?_, ?_, ?_, ?_⟩
      · rw [agregar_evento_clientes_activos, setEmpleado_clientes_activos]
        rfl
      · rw [agregar_evento_cola_espera, setEmpleado_cola_espera]
        rfl
      · rw [agregar_evento_clientes_leyendo, setEmpleado_clientes_leyendo]
        rfl
      · rw [agregar_evento_reloj, setEmpleado_reloj]
        rfl
      · refine ⟨?tf3, ?he3, ?hv3⟩
        case he3 =>
          rw [agregar_evento_empleados]
          refine setEmpleado_empleados_congr _ _ _ ?_
          rfl
        case hv3 =>
          rw [agregar_evento_eventos, setEmpleado_eventos]
          rfl

end Simulacion
namespace Simulacion

/-- The concrete full-house state used to witness the rejection path: the
default simulation with twenty active customers (exactly the capacity). -/
def sC5 : Simulacion :=
  { mkSim {} (fun _ => 1/2) (fun _ => 0) with
      clientes_activos := (List.range 20).map (fun k => k + 1) }

end Simulacion

/-- C5: when an arrival finds the facility at capacity the customer is
rejected: the active set, wait queue, reading set, clerks and customer store
are untouched, no `FIN_ATENCION` or `FIN_LECTURA` event is added, the
rejection counter increments, the next arrival is still scheduled, and the
returned snapshot is the `RECHAZADO` record. -/
theorem C5_rechazado_sin_rastro (s : Simulacion)
    (hfull : s.clientes_activos.length ≥ s.capacidad_maxima) :
    (Simulacion.procesar_llegada_cliente s).1.clientes_activos = s.clientes_activos ∧
    (Simulacion.procesar_llegada_cliente s).1.cola_espera = s.cola_espera ∧
    (Simulacion.procesar_llegada_cliente s).1.clientes_leyendo = s.clientes_leyendo ∧
    (Simulacion.procesar_llegada_cliente s).1.empleados = s.empleados ∧
    (Simulacion.procesar_llegada_cliente s).1.clientes = s.clientes ∧
    (Simulacion.procesar_llegada_cliente s).1.total_clientes_rechazados
        = s.total_clientes_rechazados + 1 ∧
    (Simulacion.procesar_llegada_cliente s).1.eventos
        = heapq.heappush s.eventos
            { tiempo := s.reloj + s.tiempo_entre_llegadas
              tipo := TipoEvento.LLEGADA_CLIENTE
              datos := {} } ∧
    ((Simulacion.procesar_llegada_cliente s).1.eventos.countP
          (fun e => decide (e.tipo = TipoEvento.FIN_ATENCION)))
        = s.eventos.countP (fun e => decide (e.tipo = TipoEvento.FIN_ATENCION)) ∧
    ((Simulacion.procesar_llegada_cliente s).1.eventos.countP
          (fun e => decide (e.tipo = TipoEvento.FIN_LECTURA)))
        = s.eventos.countP (fun e => decide (e.tipo = TipoEvento.FIN_LECTURA)) ∧
    (Simulacion.procesar_llegada_cliente s).2
        = some { id := s.total_clientes_generados + 1
                 hora_llegada := s.reloj
                 objetivo := TipoObjetivo.CONSULTAR
                 rnd_objetivo := 0
                 estado := "RECHAZADO" } := by
  have hrw : Simulacion.procesar_llegada_cliente s
      = (Simulacion.agregar_evento
           { s with total_clientes_generados := s.total_clientes_generados + 1
                    total_clientes_rechazados := s.total_clientes_rechazados + 1 }
           { tiempo := s.reloj + s.tiempo_entre_llegadas
             tipo := TipoEvento.LLEGADA_CLIENTE
             datos := {} },
         some { id := s.total_clientes_generados + 1
                hora_llegada := s.reloj
                objetivo := TipoObjetivo.CONSULTAR
                rnd_objetivo := 0
                estado := "RECHAZADO" }) := by
    unfold Simulacion.procesar_llegada_cliente
    dsimp only
    rw [if_pos hfull]
    rfl
  rw [hrw]
  refine ⟨rfl, rfl, rfl, rfl, rfl, rfl, rfl, ?_, ?_, rfl⟩
  · rw [Simulacion.agregar_evento_eventos, heapq.heappush_countP,
      List.countP_cons_of_neg]
    simp
  · rw [Simulacion.agregar_evento_eventos, heapq.heappush_countP,
      List.countP_cons_of_neg]
    simp

/-- Witness: the rejection theorem evaluated at the concrete full-house
state `sC5`. -/
theorem C5_rechazado_sin_rastro_witness :
    Simulacion.sC5.clientes_activos.length ≥ Simulacion.sC5.capacidad_maxima ∧
    ((Simulacion.procesar_llegada_cliente Simulacion.sC5).1.clientes_activos
        = Simulacion.sC5.clientes_activos ∧
      (Simulacion.procesar_llegada_cliente Simulacion.sC5).1.cola_espera
        = Simulacion.sC5.cola_espera ∧
      (Simulacion.procesar_llegada_cliente Simulacion.sC5).1.clientes_leyendo
        = Simulacion.sC5.clientes_leyendo ∧
      (Simulacion.procesar_llegada_cliente Simulacion.sC5).1.empleados
        = Simulacion.sC5.empleados ∧
      (Simulacion.procesar_llegada_cliente Simulacion.sC5).1.clientes
        = Simulacion.sC5.clientes ∧
      (Simulacion.procesar_llegada_cliente Simulacion.sC5).1.total_clientes_rechazados
        = Simulacion.sC5.total_clientes_rechazados + 1 ∧
      (Simulacion.procesar_llegada_cliente Simulacion.sC5).1.eventos
        = heapq.heappush Simulacion.sC5.eventos
            { tiempo := Simulacion.sC5.reloj + Simulacion.sC5.tiempo_entre_llegadas
              tipo := TipoEvento.LLEGADA_CLIENTE
              datos := {} } ∧
      ((Simulacion.procesar_llegada_cliente Simulacion.sC5).1.eventos.countP
            (fun e => decide (e.tipo = TipoEvento.FIN_ATENCION)))
        = Simulacion.sC5.eventos.countP
            (fun e => decide (e.tipo = TipoEvento.FIN_ATENCION)) ∧
      ((Simulacion.procesar_llegada_cliente Simulacion.sC5).1.eventos.countP
            (fun e => decide (e.tipo = TipoEvento.FIN_LECTURA)))
        = Simulacion.sC5.eventos.countP
            (fun e => decide (e.tipo = TipoEvento.FIN_LECTURA)) ∧
      (Simulacion.procesar_llegada_cliente Simulacion.sC5).2
        = some { id := Simulacion.sC5.total_clientes_generados + 1
                 hora_llegada := Simulacion.sC5.reloj
                 objetivo := TipoObjetivo.CONSULTAR
                 rnd_objetivo := 0
                 estado := "RECHAZADO" }) :=
  ⟨by decide, C5_rechazado_sin_rastro Simulacion.sC5 (by decide)⟩
namespace Simulacion

/-- Concrete state for the departure-while-closed scenario: the facility
closed at t = 100, the clock is at t = 110 and the house is full, so the
next departure drops occupancy below capacity. -/
def sC4 : Simulacion :=
  { mkSim {} (fun _ => 1/2) (fun _ => 0) with
      reloj := 110
      biblioteca_cerrada := true
      tiempo_inicio_cerrada := some 100
      clientes_activos := (List.range 20).map (fun k => k + 1) }

end Simulacion

/-- C4: `_cliente_sale` on a below-capacity departure reopens the facility
(flag cleared, closed-interval start dropped) but leaves the closed-time
accumulator untouched even though ten minutes elapsed closed; the unused
helper `actualizar_tiempo_cerrada` is the one that would have accumulated
exactly those ten minutes. -/
theorem C4_reapertura_sin_acumulacion :
    (Simulacion._cliente_sale Simulacion.sC4 1).biblioteca_cerrada = false ∧
    (Simulacion._cliente_sale Simulacion.sC4 1).tiempo_inicio_cerrada = none ∧
    (Simulacion._cliente_sale Simulacion.sC4 1).tiempo_biblioteca_cerrada_ac = 0 ∧
    Simulacion.sC4.reloj - (Simulacion.sC4.tiempo_inicio_cerrada.getD 0) = 10 ∧
    (Simulacion.actualizar_tiempo_cerrada Simulacion.sC4).tiempo_biblioteca_cerrada_ac
        = 10 := by
  with_unfolding_all decide
namespace Simulacion

theorem setCliente_total_clientes_rechazados (s : Simulacion) (c : Cliente) :
    (s.setCliente c).total_clientes_rechazados = s.total_clientes_rechazados := rfl

theorem setEmpleado_total_clientes_rechazados (s : Simulacion) (e : Empleado) :
    (s.setEmpleado e).total_clientes_rechazados = s.total_clientes_rechazados := by
  unfold setEmpleado
  split <;> rfl

theorem agregar_evento_total_clientes_rechazados (s : Simulacion) (e : Evento) :
    (s.agregar_evento e).total_clientes_rechazados = s.total_clientes_rechazados := rfl

/-- `_atender_cliente` does not touch the rejection counter. -/
theorem atender_cliente_rechazados (s : Simulacion) (cid eid : Nat) :
    (s._atender_cliente cid eid).total_clientes_rechazados
        = s.total_clientes_rechazados := by
  unfold _atender_cliente
  dsimp only
  by_cases h1 : (getCliente s cid).objetivo = TipoObjetivo.CONSULTAR
  · rw [if_pos h1]
    dsimp only [generar_tiempo_consulta, draw]
    rw [agregar_evento_total_clientes_rechazados, setEmpleado_total_clientes_rechazados]
    rfl
  · rw [if_neg h1]
    by_cases h2 : (getCliente s cid).objetivo = TipoObjetivo.PEDIR_LIBRO
    · rw [if_pos h2]
      dsimp only [generar_tiempo_busqueda, draw]
      rw [agregar_evento_total_clientes_rechazados, setEmpleado_total_clientes_rechazados]
      rfl
    · rw [if_neg h2]
      dsimp only [generar_tiempo_devolucion, draw]
      rw [agregar_evento_total_clientes_rechazados, setEmpleado_total_clientes_rechazados]
      rfl

/-- Writing a customer whose id matches the key makes the key read back
exactly that customer. -/
theorem getCliente_setCliente_self (s : Simulacion) (c : Cliente) (k : Nat)
    (h : k = c.id) : getCliente (s.setCliente c) k = c := by
  unfold getCliente setCliente
  dsimp only
  rw [if_pos h]
  rfl

/-- The written clerk occupies one of the two slots. -/
theorem setEmpleado_mem (s : Simulacion) (e : Empleado) :
    (s.setEmpleado e).empleados.1 = e ∨ (s.setEmpleado e).empleados.2 = e := by
  unfold setEmpleado
  split <;> simp

/-- `_cliente_sale` removes the departing customer from the active set (a
no-op when it is already absent, which `List.erase` also is). -/
theorem cliente_sale_activos (s : Simulacion) (cid : Nat) :
    (s._cliente_sale cid).clientes_activos = s.clientes_activos.erase cid := by
  unfold _cliente_sale
  dsimp only
  by_cases hmem : cid ∈ s.clientes_activos
  · rw [if_pos hmem]
    split <;> · split <;> rfl
  · rw [if_neg hmem]
    rw [List.erase_of_not_mem hmem]
    split <;> · split <;> rfl

end Simulacion

namespace Empleado

theorem atender_cliente_actual (e : Empleado) (c : Nat) (tf r : Rat) :
    (e.atender c tf r).cliente_actual = some c := by
  unfold atender
  split <;> rfl

end Empleado
namespace Simulacion

theorem getCliente_agregar_evento (s : Simulacion) (e : Evento) (k : Nat) :
    getCliente (s.agregar_evento e) k = getCliente s k := rfl

theorem getCliente_setEmpleado (s : Simulacion) (e : Empleado) (k : Nat) :
    getCliente (s.setEmpleado e) k = getCliente s k := by
  unfold setEmpleado
  split <;> rfl

/-- `_atender_cliente` rewrites the customer under its own id and keeps the
intent (`objetivo`) it found. -/
theorem atender_cliente_objetivo (s : Simulacion) (cid eid : Nat)
    (hcoh : (getCliente s cid).id = cid) :
    (getCliente (s._atender_cliente cid eid) cid).objetivo
        = (getCliente s cid).objetivo := by
  unfold _atender_cliente
  dsimp only
  by_cases h1 : (getCliente s cid).objetivo = TipoObjetivo.CONSULTAR
  · rw [if_pos h1]
    dsimp only [generar_tiempo_consulta, draw]
    rw [getCliente_agregar_evento, getCliente_setEmpleado,
      getCliente_setCliente_self _ _ _ (by split <;> exact hcoh.symm)]
    split <;> rfl
  · rw [if_neg h1]
    by_cases h2 : (getCliente s cid).objetivo = TipoObjetivo.PEDIR_LIBRO
    · rw [if_pos h2]
      dsimp only [generar_tiempo_busqueda, draw]
      rw [getCliente_agregar_evento, getCliente_setEmpleado,
        getCliente_setCliente_self _ _ _ (by split <;> exact hcoh.symm)]
      split <;> rfl
    · rw [if_neg h2]
      dsimp only [generar_tiempo_devolucion, draw]
      rw [getCliente_agregar_evento, getCliente_setEmpleado,
        getCliente_setCliente_self _ _ _ (by split <;> exact hcoh.symm)]
      split <;> rfl

end Simulacion
namespace Simulacion

/-- An arrival under capacity admits the new customer: its fresh id is
appended to the active set and the rejection counter is untouched. -/
theorem llegada_acepta (s : Simulacion)
    (hfull : ¬ s.clientes_activos.length ≥ s.capacidad_maxima) :
    (procesar_llegada_cliente s).1.clientes_activos
        = s.clientes_activos ++ [s.contador_clientes + 1] ∧
    (procesar_llegada_cliente s).1.total_clientes_rechazados
        = s.total_clientes_rechazados := by
  unfold procesar_llegada_cliente
  dsimp only
  rw [if_neg hfull]
  dsimp only [generar_objetivo, draw, _obtener_empleado_libre]
  split_ifs <;>
    dsimp only <;>
    first
    | exact ⟨by
        rw [agregar_evento_clientes_activos]
        rw [(atender_cliente_frame _ _ _).1]
        rfl, by
        rw [agregar_evento_total_clientes_rechazados, atender_cliente_rechazados]
        rfl⟩
    | exact ⟨by
        rw [agregar_evento_clientes_activos, setCliente_clientes_activos]
        rfl, by
        rw [agregar_evento_total_clientes_rechazados, setCliente_total_clientes_rechazados]
        rfl⟩

/-- The admission gate: the arrival is rejected exactly when the active set
has reached capacity. -/
theorem llegada_gate (s : Simulacion) :
    ((procesar_llegada_cliente s).1.total_clientes_rechazados
        = s.total_clientes_rechazados + 1)
      ↔ s.clientes_activos.length ≥ s.capacidad_maxima := by
  by_cases hfull : s.clientes_activos.length ≥ s.capacidad_maxima
  · apply iff_of_true _ hfull
    unfold procesar_llegada_cliente
    dsimp only
    rw [if_pos hfull]
    rfl
  · apply iff_of_false _ hfull
    rw [(llegada_acepta s hfull).2]
    omega

end Simulacion
namespace Simulacion

/-- Serving a coherent customer preserves the active set and the customer's
intent, and puts the customer on one of the clerks. -/
theorem reentra_some_case (s3 s0 : Simulacion) (cid eid : Nat)
    (hact : s3.clientes_activos = s0.clientes_activos)
    (hobj : (getCliente s3 cid).objetivo = TipoObjetivo.DEVOLVER_LIBRO)
    (hcoh3 : (getCliente s3 cid).id = cid) :
    (s3._atender_cliente cid eid).clientes_activos = s0.clientes_activos ∧
    (getCliente (s3._atender_cliente cid eid) cid).objetivo
        = TipoObjetivo.DEVOLVER_LIBRO ∧
    ((s3._atender_cliente cid eid).cola_espera = s0.cola_espera ++ [cid]
      ∨ (s3._atender_cliente cid eid).empleados.1.cliente_actual = some cid
      ∨ (s3._atender_cliente cid eid).empleados.2.cliente_actual = some cid) := by
  refine ⟨?_, ?_, ?_⟩
  · rw [(atender_cliente_frame s3 cid eid).1, hact]
  · rw [atender_cliente_objetivo s3 cid eid hcoh3, hobj]
  · obtain ⟨tf, hemp, -⟩ := (atender_cliente_frame s3 cid eid).2.2.2.2
    rcases setEmpleado_mem s3 ((getEmpleado s3 eid).atender cid tf s3.reloj) with h | h
    · exact Or.inr (Or.inl (by rw [hemp, h, Empleado.atender_cliente_actual]))
    · exact Or.inr (Or.inr (by rw [hemp, h, Empleado.atender_cliente_actual]))

end Simulacion
namespace Simulacion

theorem setCliente_clientes_self (s : Simulacion) (c : Cliente) (k : Nat)
    (h : k = c.id) : (s.setCliente c).clientes k = some c := by
  unfold setCliente
  dsimp only
  rw [if_pos h]

theorem getCliente_update_cola (s : Simulacion) (l : List Nat) (k : Nat) :
    getCliente { s with cola_espera := l } k = getCliente s k := rfl

/-- `procesar_fin_lectura` keeps the finished reader in the active set,
converts it to Return intent, and either queues it or puts it on a clerk. -/
theorem fin_lectura_reentra (s : Simulacion) (evento : Evento)
    (hcoh : (getCliente s (evento.datos.cliente.getD 0)).id
        = evento.datos.cliente.getD 0) :
    (procesar_fin_lectura s evento).1.clientes_activos = s.clientes_activos ∧
    (getCliente (procesar_fin_lectura s evento).1 (evento.datos.cliente.getD 0)).objetivo
        = TipoObjetivo.DEVOLVER_LIBRO ∧
    ((procesar_fin_lectura s evento).1.cola_espera
        = s.cola_espera ++ [evento.datos.cliente.getD 0]
      ∨ (procesar_fin_lectura s evento).1.empleados.1.cliente_actual
          = some (evento.datos.cliente.getD 0)
      ∨ (procesar_fin_lectura s evento).1.empleados.2.cliente_actual
          = some (evento.datos.cliente.getD 0)) := by
  unfold procesar_fin_lectura
  dsimp only
  split
  · split <;>
      · apply reentra_some_case
        · rw [setCliente_clientes_activos, setCliente_clientes_activos]
        · rw [getCliente_setCliente_self _ _ _
            (by rw [getCliente_setCliente_self _ _ _ (by exact hcoh.symm)]; exact hcoh.symm)]
          rw [getCliente_setCliente_self _ _ _ (by exact hcoh.symm)]
        · rw [getCliente_setCliente_self _ _ _
            (by rw [getCliente_setCliente_self _ _ _ (by exact hcoh.symm)]; exact hcoh.symm)]
          rw [getCliente_setCliente_self _ _ _ (by exact hcoh.symm)]
          exact hcoh
  · split <;>
      · refine ⟨rfl, ?_, Or.inl rfl⟩
        rw [getCliente_update_cola]
        rw [getCliente_setCliente_self _ _ _ (by
          rw [getCliente_setCliente_self _ _ _ (by exact hcoh.symm)]; exact hcoh.symm)]
        rw [getCliente_setCliente_self _ _ _ (by exact hcoh.symm)]

end Simulacion
namespace Simulacion

theorem draw_snd_clientes_activos (s : Simulacion) :
    (s.draw).2.clientes_activos = s.clientes_activos := rfl

theorem atender_cliente_activos (s : Simulacion) (cid eid : Nat) :
    (s._atender_cliente cid eid).clientes_activos = s.clientes_activos :=
  (atender_cliente_frame s cid eid).1

/-- `procesar_fin_atencion` either keeps the active set (borrower stays to
read) or removes exactly the served customer (departure via
`_cliente_sale`). -/
theorem fin_atencion_activos (s : Simulacion) (evento : Evento) :
    (procesar_fin_atencion s evento).1.clientes_activos = s.clientes_activos
    ∨ (procesar_fin_atencion s evento).1.clientes_activos
        = s.clientes_activos.erase (evento.datos.cliente.getD 0) := by
  unfold procesar_fin_atencion
  dsimp only
  repeat' split
  all_goals
    first
      | (left
         simp only [atender_cliente_activos, agregar_evento_clientes_activos,
           setCliente_clientes_activos, setEmpleado_clientes_activos,
           cliente_sale_activos, draw_snd_clientes_activos]
         done)
      | (right
         simp only [atender_cliente_activos, agregar_evento_clientes_activos,
           setCliente_clientes_activos, setEmpleado_clientes_activos,
           cliente_sale_activos, draw_snd_clientes_activos]
         done)

end Simulacion
namespace Simulacion

/-- Concrete state for the occupancy-policy witness: one customer (id 1)
admitted and currently reading. -/
def sC10 : Simulacion :=
  { mkSim {} (fun _ => 1/2) (fun _ => 0) with
      clientes_activos := [1]
      clientes_leyendo := [1]
      clientes := fun k =>
        if k = 1 then
          some { id := 1, hora_llegada := 0, objetivo := TipoObjetivo.CONSULTAR,
                 rnd_objetivo := 0 }
        else none }

/-- The reading-end event for customer 1. -/
def evC10 : Evento :=
  { tiempo := 10, tipo := TipoEvento.FIN_LECTURA,
    datos := { cliente := some 1, empleado := none } }

end Simulacion

/-- C10: the implicit occupancy policy.  The admission gate fires exactly
when `clientes_activos` has reached capacity; an admitted customer's fresh
id is appended to `clientes_activos`; a finished reader stays in
`clientes_activos`, is converted to Return intent and is queued or served
again; and `_cliente_sale` is the (only) removal from `clientes_activos`,
erasing exactly the departing id, while `procesar_fin_atencion` either
keeps the active set or ends in that single erasure. -/
theorem C10_ocupacion_cuenta_presentes (s : Simulacion) (evento : Evento) (cid : Nat)
    (hcoh : (Simulacion.getCliente s (evento.datos.cliente.getD 0)).id
        = evento.datos.cliente.getD 0) :
    (((Simulacion.procesar_llegada_cliente s).1.total_clientes_rechazados
        = s.total_clientes_rechazados + 1)
      ↔ s.clientes_activos.length ≥ s.capacidad_maxima) ∧
    (¬ s.clientes_activos.length ≥ s.capacidad_maxima →
      (Simulacion.procesar_llegada_cliente s).1.clientes_activos
        = s.clientes_activos ++ [s.contador_clientes + 1]) ∧
    (Simulacion.procesar_fin_lectura s evento).1.clientes_activos
        = s.clientes_activos ∧
    (Simulacion.getCliente (Simulacion.procesar_fin_lectura s evento).1
        (evento.datos.cliente.getD 0)).objetivo = TipoObjetivo.DEVOLVER_LIBRO ∧
    ((Simulacion.procesar_fin_lectura s evento).1.cola_espera
        = s.cola_espera ++ [evento.datos.cliente.getD 0]
      ∨ (Simulacion.procesar_fin_lectura s evento).1.empleados.1.cliente_actual
          = some (evento.datos.cliente.getD 0)
      ∨ (Simulacion.procesar_fin_lectura s evento).1.empleados.2.cliente_actual
          = some (evento.datos.cliente.getD 0)) ∧
    (s._cliente_sale cid).clientes_activos = s.clientes_activos.erase cid ∧
    ((Simulacion.procesar_fin_atencion s evento).1.clientes_activos
        = s.clientes_activos
      ∨ (Simulacion.procesar_fin_atencion s evento).1.clientes_activos
          = s.clientes_activos.erase (evento.datos.cliente.getD 0)) := by
  obtain ⟨h1, h2, h3⟩ := Simulacion.fin_lectura_reentra s evento hcoh
  exact ⟨Simulacion.llegada_gate s, fun h => (Simulacion.llegada_acepta s h).1,
    h1, h2, h3, Simulacion.cliente_sale_activos s cid,
    Simulacion.fin_atencion_activos s evento⟩

/-- Witness: the occupancy-policy theorem applied to the one-reader state
`sC10` and its reading-end event. -/
theorem C10_ocupacion_cuenta_presentes_witness :
    (Simulacion.getCliente Simulacion.sC10 (Simulacion.evC10.datos.cliente.getD 0)).id
        = Simulacion.evC10.datos.cliente.getD 0 ∧
    ((((Simulacion.procesar_llegada_cliente Simulacion.sC10).1.total_clientes_rechazados
        = Simulacion.sC10.total_clientes_rechazados + 1)
      ↔ Simulacion.sC10.clientes_activos.length ≥ Simulacion.sC10.capacidad_maxima) ∧
    (¬ Simulacion.sC10.clientes_activos.length ≥ Simulacion.sC10.capacidad_maxima →
      (Simulacion.procesar_llegada_cliente Simulacion.sC10).1.clientes_activos
        = Simulacion.sC10.clientes_activos ++ [Simulacion.sC10.contador_clientes + 1]) ∧
    (Simulacion.procesar_fin_lectura Simulacion.sC10 Simulacion.evC10).1.clientes_activos
        = Simulacion.sC10.clientes_activos ∧
    (Simulacion.getCliente
        (Simulacion.procesar_fin_lectura Simulacion.sC10 Simulacion.evC10).1
        (Simulacion.evC10.datos.cliente.getD 0)).objetivo
        = TipoObjetivo.DEVOLVER_LIBRO ∧
    ((Simulacion.procesar_fin_lectura Simulacion.sC10 Simulacion.evC10).1.cola_espera
        = Simulacion.sC10.cola_espera ++ [Simulacion.evC10.datos.cliente.getD 0]
      ∨ (Simulacion.procesar_fin_lectura Simulacion.sC10
            Simulacion.evC10).1.empleados.1.cliente_actual
          = some (Simulacion.evC10.datos.cliente.getD 0)
      ∨ (Simulacion.procesar_fin_lectura Simulacion.sC10
            Simulacion.evC10).1.empleados.2.cliente_actual
          = some (Simulacion.evC10.datos.cliente.getD 0)) ∧
    (Simulacion.sC10._cliente_sale 1).clientes_activos
        = Simulacion.sC10.clientes_activos.erase 1 ∧
    ((Simulacion.procesar_fin_atencion Simulacion.sC10 Simulacion.evC10).1.clientes_activos
        = Simulacion.sC10.clientes_activos
      ∨ (Simulacion.procesar_fin_atencion Simulacion.sC10
            Simulacion.evC10).1.clientes_activos
          = Simulacion.sC10.clientes_activos.erase
              (Simulacion.evC10.datos.cliente.getD 0))) :=
  ⟨rfl, C10_ocupacion_cuenta_presentes Simulacion.sC10 Simulacion.evC10 1 rfl⟩
/-! ## The lazy clerk-accumulator invariant (claim C1) -/

/-- The lazily-accrued identity actually maintained by `Empleado.atender` /
`Empleado.liberar`: busy + idle equals the clock of the clerk's *last state
change*, not the current clock. -/
def empOK (e : Empleado) : Prop :=
  e.tiempo_acumulado_atencion + e.tiempo_acumulado_ocioso = e.ultimo_cambio_estado

/-- Outstanding `FIN_ATENCION` events of clerk `k`. -/
def finPred (k : Nat) : Evento → Bool :=
  fun e => decide (e.tipo = TipoEvento.FIN_ATENCION ∧ e.datos.empleado = some k)

def countFin (evs : List Evento) (k : Nat) : Nat := evs.countP (finPred k)

/-- A busy clerk has exactly one outstanding `FIN_ATENCION`, an idle clerk
none. -/
def finOK (e : Empleado) (evs : List Evento) : Prop :=
  countFin evs e.id = (if e.estado = EstadoEmpleado.OCUPADO then 1 else 0)

/-- Every `FIN_ATENCION` event names one of the two clerks. -/
def finEmp (evs : List Evento) : Prop :=
  ∀ e ∈ evs, e.tipo = TipoEvento.FIN_ATENCION →
    e.datos.empleado = some 1 ∨ e.datos.empleado = some 2

/-- The engine invariant on the clerk pair and the FEL. -/
def INVP (emp : Empleado × Empleado) (evs : List Evento) : Prop :=
  emp.1.id = 1 ∧ emp.2.id = 2 ∧ empOK emp.1 ∧ empOK emp.2 ∧
  finOK emp.1 evs ∧ finOK emp.2 evs ∧ finEmp evs

def INV (s : Simulacion) : Prop := INVP s.empleados s.eventos

namespace Empleado

theorem atender_empOK (e : Empleado) (c : Nat) (tf r : Rat)
    (hOK : empOK e) (hfree : e.esta_libre = true) :
    empOK (e.atender c tf r) := by
  unfold empOK atender
  have hl : e.estado = EstadoEmpleado.LIBRE := of_decide_eq_true hfree
  rw [if_pos hl]
  dsimp only
  unfold empOK at hOK
  linarith

theorem atender_estado (e : Empleado) (c : Nat) (tf r : Rat) :
    (e.atender c tf r).estado = EstadoEmpleado.OCUPADO := by
  unfold atender
  split <;> rfl

theorem liberar_empOK (e : Empleado) (r : Rat)
    (hOK : empOK e) (hocc : e.estado = EstadoEmpleado.OCUPADO) :
    empOK ((e.liberar r).1) := by
  unfold empOK liberar
  rw [if_pos hocc]
  dsimp only
  unfold empOK at hOK
  linarith

theorem liberar_estado (e : Empleado) (r : Rat) :
    ((e.liberar r).1).estado = EstadoEmpleado.LIBRE := by
  unfold liberar
  split <;> rfl

theorem liberar_id (e : Empleado) (r : Rat) : ((e.liberar r).1).id = e.id := by
  unfold liberar
  split <;> rfl

end Empleado

namespace heapq

theorem mem_heappush (heap : List Evento) (e x : Evento) :
    x ∈ heappush heap e ↔ x = e ∨ x ∈ heap := by
  rw [(heappush_perm heap e).mem_iff]
  exact List.mem_cons

end heapq

theorem countFin_heappush (evs : List Evento) (ev : Evento) (k : Nat) :
    countFin (heapq.heappush evs ev) k
        = countFin evs k + (if finPred k ev then 1 else 0) := by
  unfold countFin
  rw [heapq.heappush_countP, List.countP_cons]

theorem countFin_perm {evs evs' : List Evento} (h : evs.Perm evs') (k : Nat) :
    countFin evs k = countFin evs' k := h.countP_eq _

theorem INVP_perm (emp : Empleado × Empleado) {evs evs' : List Evento}
    (hp : evs.Perm evs') (h : INVP emp evs) : INVP emp evs' := by
  obtain ⟨h1, h2, h3, h4, h5, h6, h7⟩ := h
  refine ⟨h1, h2, h3, h4, ?_, ?_, ?_⟩
  · unfold finOK at h5 ⊢
    rw [← countFin_perm hp]
    exact h5
  · unfold finOK at h6 ⊢
    rw [← countFin_perm hp]
    exact h6
  · intro e hmem
    exact h7 e (hp.mem_iff.mpr hmem)

theorem finPred_eq_false_of_tipo {ev : Evento} (k : Nat)
    (h : ¬ ev.tipo = TipoEvento.FIN_ATENCION) : finPred k ev = false := by
  unfold finPred
  simp [h]

theorem INVP_push_nonfin (emp : Empleado × Empleado) (evs : List Evento)
    (ev : Evento) (h : INVP emp evs) (ht : ¬ ev.tipo = TipoEvento.FIN_ATENCION) :
    INVP emp (heapq.heappush evs ev) := by
  obtain ⟨h1, h2, h3, h4, h5, h6, h7⟩ := h
  refine ⟨h1, h2, h3, h4, ?_, ?_, ?_⟩
  · unfold finOK at h5 ⊢
    rw [countFin_heappush, finPred_eq_false_of_tipo _ ht]
    simpa using h5
  · unfold finOK at h6 ⊢
    rw [countFin_heappush, finPred_eq_false_of_tipo _ ht]
    simpa using h6
  · intro e hmem htipo
    rcases (heapq.mem_heappush evs ev e).mp hmem with rfl | hm
    · exact absurd htipo ht
    · exact h7 e hm htipo

theorem INVP_pop_nonfin (emp : Empleado × Empleado) (evs : List Evento)
    (ev : Evento) (h : INVP emp (ev :: evs)) (ht : ¬ ev.tipo = TipoEvento.FIN_ATENCION) :
    INVP emp evs := by
  obtain ⟨h1, h2, h3, h4, h5, h6, h7⟩ := h
  refine ⟨h1, h2, h3, h4, ?_, ?_, ?_⟩
  · unfold finOK at h5 ⊢
    unfold countFin at h5 ⊢
    rw [List.countP_cons, finPred_eq_false_of_tipo _ ht] at h5
    simpa using h5
  · unfold finOK at h6 ⊢
    unfold countFin at h6 ⊢
    rw [List.countP_cons, finPred_eq_false_of_tipo _ ht] at h6
    simpa using h6
  · intro e hmem htipo
    exact h7 e (List.mem_cons_of_mem _ hmem) htipo
namespace Simulacion

theorem getEmpleado_one (s : Simulacion) : getEmpleado s 1 = s.empleados.1 := by
  unfold getEmpleado
  rw [if_pos rfl]

theorem getEmpleado_two (s : Simulacion) (hid2 : (2 : Nat) ≠ 1) :
    getEmpleado s 2 = s.empleados.2 := by
  unfold getEmpleado
  rw [if_neg hid2]

/-- Serving a customer on a free clerk (named by its slot id) preserves the
engine invariant: the clerk becomes busy together with exactly one new
outstanding `FIN_ATENCION` event. -/
theorem atender_INVP (s : Simulacion) (cid eid : Nat)
    (hinv : INVP s.empleados s.eventos)
    (heid : eid = 1 ∨ eid = 2)
    (hfree : (getEmpleado s eid).esta_libre = true) :
    INVP (s._atender_cliente cid eid).empleados
      (s._atender_cliente cid eid).eventos := by
  obtain ⟨tf, hemp, hev⟩ := (atender_cliente_frame s cid eid).2.2.2.2
  rw [hemp, hev]
  obtain ⟨hid1, hid2, hok1, hok2, hfin1, hfin2, hfe⟩ := hinv
  rcases heid with rfl | rfl
  · rw [getEmpleado_one] at hfree ⊢
    have hestado : s.empleados.1.estado = EstadoEmpleado.LIBRE :=
      of_decide_eq_true hfree
    have hcount1 : countFin s.eventos 1 = 0 := by
      have := hfin1
      unfold finOK at this
      rw [hid1] at this
      rw [this, if_neg]
      rw [hestado]
      intro hcontra
      exact EstadoEmpleado.noConfusion hcontra
    unfold setEmpleado
    rw [if_pos (by rw [Empleado.atender_id, hid1])]
    refine ⟨by rw [Empleado.atender_id, hid1], hid2,
      Empleado.atender_empOK _ _ _ _ hok1 hfree, hok2, ?_, ?_, ?_⟩
    · unfold finOK
      rw [Empleado.atender_id, hid1, Empleado.atender_estado, if_pos rfl,
        countFin_heappush, hcount1]
      rw [if_pos (by unfold finPred; exact decide_eq_true ⟨rfl, rfl⟩)]
    · unfold finOK
      unfold finOK at hfin2
      rw [hid2] at hfin2 ⊢
      rw [countFin_heappush, if_neg, Nat.add_zero]
      · exact hfin2
      · unfold finPred
        simp
    · intro e hmem htipo
      rcases (heapq.mem_heappush _ _ e).mp hmem with rfl | hm
      · exact Or.inl rfl
      · exact hfe e hm htipo
  · rw [getEmpleado_two s (by decide)] at hfree ⊢
    have hestado : s.empleados.2.estado = EstadoEmpleado.LIBRE :=
      of_decide_eq_true hfree
    have hcount2 : countFin s.eventos 2 = 0 := by
      have := hfin2
      unfold finOK at this
      rw [hid2] at this
      rw [this, if_neg]
      rw [hestado]
      intro hcontra
      exact EstadoEmpleado.noConfusion hcontra
    unfold setEmpleado
    rw [if_neg (by rw [Empleado.atender_id, hid2]; decide)]
    refine ⟨hid1, by rw [Empleado.atender_id, hid2],
      hok1, Empleado.atender_empOK _ _ _ _ hok2 hfree, ?_, ?_, ?_⟩
    · unfold finOK
      unfold finOK at hfin1
      rw [hid1] at hfin1 ⊢
      rw [countFin_heappush, if_neg, Nat.add_zero]
      · exact hfin1
      · unfold finPred
        simp
    · unfold finOK
      rw [Empleado.atender_id, hid2, Empleado.atender_estado, if_pos rfl,
        countFin_heappush, hcount2]
      rw [if_pos (by unfold finPred; exact decide_eq_true ⟨rfl, rfl⟩)]
    · intro e hmem htipo
      rcases (heapq.mem_heappush _ _ e).mp hmem with rfl | hm
      · exact Or.inr rfl
      · exact hfe e hm htipo

end Simulacion
namespace Simulacion

theorem generar_objetivo_snd_empleados (s : Simulacion) :
    (generar_objetivo s).2.empleados = s.empleados := by
  unfold generar_objetivo draw
  dsimp only
  split_ifs <;> rfl

theorem generar_objetivo_snd_eventos (s : Simulacion) :
    (generar_objetivo s).2.eventos = s.eventos := by
  unfold generar_objetivo draw
  dsimp only
  split_ifs <;> rfl

theorem INVP_agregar (s : Simulacion) (ev : Evento)
    (h : INVP s.empleados s.eventos) (ht : ¬ ev.tipo = TipoEvento.FIN_ATENCION) :
    INVP (s.agregar_evento ev).empleados (s.agregar_evento ev).eventos := by
  rw [agregar_evento_empleados, agregar_evento_eventos]
  exact INVP_push_nonfin _ _ _ h ht

set_option maxHeartbeats 1000000 in
/-- The arrival handler preserves the engine invariant. -/
theorem llegada_INVP (s : Simulacion)
    (hinv : INVP s.empleados s.eventos) :
    INVP (procesar_llegada_cliente s).1.empleados
      (procesar_llegada_cliente s).1.eventos := by
  unfold procesar_llegada_cliente
  dsimp only
  split
  · exact INVP_agregar _ _ hinv (by intro h; exact TipoEvento.noConfusion h)
  · refine INVP_agregar _ _ ?_ (by intro h; exact TipoEvento.noConfusion h)
    split_ifs with hclose <;>
      · split
        · rename_i eid heq
          unfold _obtener_empleado_libre at heq
          simp only [setCliente_empleados, generar_objetivo_snd_empleados] at heq
          apply atender_INVP
          · simp only [setCliente_empleados, setCliente_eventos,
              generar_objetivo_snd_empleados, generar_objetivo_snd_eventos]
            exact hinv
          · split_ifs at heq with hf1 hf2
            · injection heq with heq'
              exact Or.inl (by rw [← heq']; exact hinv.1)
            · injection heq with heq'
              exact Or.inr (by rw [← heq']; exact hinv.2.1)
          · unfold getEmpleado
            simp only [setCliente_empleados, generar_objetivo_snd_empleados]
            split_ifs at heq with hf1 hf2
            · injection heq with heq'
              rw [← heq', hinv.1, if_pos rfl]
              exact hf1
            · injection heq with heq'
              rw [← heq', hinv.2.1, if_neg (by decide)]
              exact hf2
        · simp only [setCliente_empleados, setCliente_eventos,
            generar_objetivo_snd_empleados, generar_objetivo_snd_eventos]
          exact hinv

set_option maxHeartbeats 1000000 in
/-- The reading-end handler preserves the engine invariant. -/
theorem fin_lectura_INVP (s : Simulacion) (evento : Evento)
    (hinv : INVP s.empleados s.eventos) :
    INVP (procesar_fin_lectura s evento).1.empleados
      (procesar_fin_lectura s evento).1.eventos := by
  unfold procesar_fin_lectura
  dsimp only
  split_ifs with hley <;>
    · split
      · rename_i eid heq
        unfold _obtener_empleado_libre at heq
        simp only [setCliente_empleados] at heq
        apply atender_INVP
        · simp only [setCliente_empleados, setCliente_eventos]
          exact hinv
        · split_ifs at heq with hf1 hf2
          · injection heq with heq'
            exact Or.inl (by rw [← heq']; exact hinv.1)
          · injection heq with heq'
            exact Or.inr (by rw [← heq']; exact hinv.2.1)
        · unfold getEmpleado
          simp only [setCliente_empleados]
          split_ifs at heq with hf1 hf2
          · injection heq with heq'
            rw [← heq', hinv.1, if_pos rfl]
            exact hf1
          · injection heq with heq'
            rw [← heq', hinv.2.1, if_neg (by decide)]
            exact hf2
      · simp only [setCliente_empleados, setCliente_eventos]
        exact hinv

end Simulacion
namespace Simulacion

theorem cliente_sale_empleados (s : Simulacion) (cid : Nat) :
    (s._cliente_sale cid).empleados = s.empleados := by
  unfold _cliente_sale
  dsimp only
  split <;> · split <;> · split <;> rfl

theorem cliente_sale_eventos (s : Simulacion) (cid : Nat) :
    (s._cliente_sale cid).eventos = s.eventos := by
  unfold _cliente_sale
  dsimp only
  split <;> · split <;> · split <;> rfl

end Simulacion
namespace Simulacion

set_option maxHeartbeats 2000000 in
/-- The service-end handler preserves the engine invariant, where the
invariant is taken over the FEL *with the dispatched event still in front*
(as popped by `ejecutar_paso`). -/
theorem fin_atencion_INVP (s : Simulacion) (evento : Evento)
    (hinv : INVP s.empleados (evento :: s.eventos))
    (htipo : evento.tipo = TipoEvento.FIN_ATENCION) :
    INVP (procesar_fin_atencion s evento).1.empleados
      (procesar_fin_atencion s evento).1.eventos := by
  obtain ⟨hid1, hid2, hok1, hok2, hfin1, hfin2, hfe⟩ := hinv
  have hfe' : finEmp s.eventos := fun e hm ht => hfe e (List.mem_cons_of_mem _ hm) ht
  unfold procesar_fin_atencion
  dsimp only
  rcases hfe evento (List.mem_cons_self _ _) htipo with hemp | hemp
  · rw [hemp]
    dsimp only [Option.getD]
    have hfp : finPred 1 evento = true := by
      unfold finPred
      exact decide_eq_true ⟨htipo, hemp⟩
    have hcnt : countFin (evento :: s.eventos) 1 = countFin s.eventos 1 + 1 := by
      unfold countFin
      rw [List.countP_cons, hfp]
      simp
    have h5 : countFin s.eventos 1 + 1
        = if s.empleados.1.estado = EstadoEmpleado.OCUPADO then 1 else 0 := by
      have h6 := hfin1
      unfold finOK at h6
      rw [hid1, hcnt] at h6
      exact h6
    have hst : s.empleados.1.estado = EstadoEmpleado.OCUPADO := by
      by_contra hne
      rw [if_neg hne] at h5
      omega
    have hcnt0 : countFin s.eventos 1 = 0 := by
      rw [if_pos hst] at h5
      omega
    have hfp2 : finPred 2 evento = false := by
      unfold finPred
      simp [hemp]
    have hcnt2 : countFin s.eventos 2 = countFin (evento :: s.eventos) 2 := by
      unfold countFin
      rw [List.countP_cons, hfp2]
      simp
    have hlid : ((getEmpleado s 1).liberar s.reloj).1.id = 1 := by
      rw [getEmpleado_one, Empleado.liberar_id, hid1]
    have hinv1 : INVP (setEmpleado s ((getEmpleado s 1).liberar s.reloj).1).empleados
        (setEmpleado s ((getEmpleado s 1).liberar s.reloj).1).eventos := by
      unfold setEmpleado
      rw [if_pos hlid]
      dsimp only
      refine ⟨hlid, hid2, ?_, hok2, ?_, ?_, hfe'⟩
      · rw [getEmpleado_one]
        exact Empleado.liberar_empOK _ _ hok1 hst
      · unfold finOK
        rw [hlid, Empleado.liberar_estado,
          if_neg (by intro hh; exact EstadoEmpleado.noConfusion hh)]
        exact hcnt0
      · unfold finOK
        rw [hid2, hcnt2]
        have h7 := hfin2
        unfold finOK at h7
        rw [hid2] at h7
        exact h7
    split_ifs <;> try split
    · simp only [cliente_sale_empleados, cliente_sale_eventos, setCliente_empleados,
        setCliente_eventos, draw_snd_empleados, draw_snd_eventos]
      exact hinv1
    · apply atender_INVP
      · simp only [cliente_sale_empleados, cliente_sale_eventos, setCliente_empleados,
          setCliente_eventos, draw_snd_empleados, draw_snd_eventos]
        exact hinv1
      · exact Or.inl rfl
      · exact And.right (by assumption)
    · simp only [cliente_sale_empleados, cliente_sale_eventos, setCliente_empleados,
        setCliente_eventos, draw_snd_empleados, draw_snd_eventos]
      exact hinv1
    · simp only [cliente_sale_empleados, cliente_sale_eventos, setCliente_empleados,
        setCliente_eventos, draw_snd_empleados, draw_snd_eventos]
      exact hinv1
    · refine INVP_agregar _ _ ?_ ?_
      · simp only [setCliente_empleados, setCliente_eventos, draw_snd_empleados,
          draw_snd_eventos]
        exact hinv1
      · intro hh
        exact TipoEvento.noConfusion hh
    · apply atender_INVP
      · simp only [agregar_evento_empleados, agregar_evento_eventos,
          setCliente_empleados, setCliente_eventos, draw_snd_empleados, draw_snd_eventos]
        refine INVP_push_nonfin _ _ _ ?_ ?_
        · try simp only [setCliente_empleados, setCliente_eventos, draw_snd_empleados,
            draw_snd_eventos]
          exact hinv1
        · intro hh
          exact TipoEvento.noConfusion hh
      · exact Or.inl rfl
      · exact And.right (by assumption)
    · refine INVP_agregar _ _ ?_ ?_
      · simp only [setCliente_empleados, setCliente_eventos, draw_snd_empleados,
          draw_snd_eventos]
        exact hinv1
      · intro hh
        exact TipoEvento.noConfusion hh
    · refine INVP_agregar _ _ ?_ ?_
      · simp only [setCliente_empleados, setCliente_eventos, draw_snd_empleados,
          draw_snd_eventos]
        exact hinv1
      · intro hh
        exact TipoEvento.noConfusion hh
    · simp only [cliente_sale_empleados, cliente_sale_eventos, setCliente_empleados,
        setCliente_eventos, draw_snd_empleados, draw_snd_eventos]
      exact hinv1
    · apply atender_INVP
      · simp only [cliente_sale_empleados, cliente_sale_eventos, setCliente_empleados,
          setCliente_eventos, draw_snd_empleados, draw_snd_eventos]
        exact hinv1
      · exact Or.inl rfl
      · exact And.right (by assumption)
    · simp only [cliente_sale_empleados, cliente_sale_eventos, setCliente_empleados,
        setCliente_eventos, draw_snd_empleados, draw_snd_eventos]
      exact hinv1
    · simp only [cliente_sale_empleados, cliente_sale_eventos, setCliente_empleados,
        setCliente_eventos, draw_snd_empleados, draw_snd_eventos]
      exact hinv1
  · rw [hemp]
    dsimp only [Option.getD]
    have hfp : finPred 2 evento = true := by
      unfold finPred
      exact decide_eq_true ⟨htipo, hemp⟩
    have hcnt : countFin (evento :: s.eventos) 2 = countFin s.eventos 2 + 1 := by
      unfold countFin
      rw [List.countP_cons, hfp]
      simp
    have h5 : countFin s.eventos 2 + 1
        = if s.empleados.2.estado = EstadoEmpleado.OCUPADO then 1 else 0 := by
      have h6 := hfin2
      unfold finOK at h6
      rw [hid2, hcnt] at h6
      exact h6
    have hst : s.empleados.2.estado = EstadoEmpleado.OCUPADO := by
      by_contra hne
      rw [if_neg hne] at h5
      omega
    have hcnt0 : countFin s.eventos 2 = 0 := by
      rw [if_pos hst] at h5
      omega
    have hfp1 : finPred 1 evento = false := by
      unfold finPred
      simp [hemp]
    have hcnt1 : countFin s.eventos 1 = countFin (evento :: s.eventos) 1 := by
      unfold countFin
      rw [List.countP_cons, hfp1]
      simp
    have hlid : ((getEmpleado s 2).liberar s.reloj).1.id = 2 := by
      rw [getEmpleado_two _ (by decide), Empleado.liberar_id, hid2]
    have hinv1 : INVP (setEmpleado s ((getEmpleado s 2).liberar s.reloj).1).empleados
        (setEmpleado s ((getEmpleado s 2).liberar s.reloj).1).eventos := by
      unfold setEmpleado
      rw [if_neg (by rw [hlid]; decide)]
      dsimp only
      refine ⟨hid1, hlid, hok1, ?_, ?_, ?_, hfe'⟩
      · rw [getEmpleado_two _ (by decide)]
        exact Empleado.liberar_empOK _ _ hok2 hst
      · unfold finOK
        rw [hid1, hcnt1]
        have h7 := hfin1
        unfold finOK at h7
        rw [hid1] at h7
        exact h7
      · unfold finOK
        rw [hlid, Empleado.liberar_estado,
          if_neg (by intro hh; exact EstadoEmpleado.noConfusion hh)]
        exact hcnt0
    split_ifs <;> try split
    · simp only [cliente_sale_empleados, cliente_sale_eventos, setCliente_empleados,
        setCliente_eventos, draw_snd_empleados, draw_snd_eventos]
      exact hinv1
    · apply atender_INVP
      · simp only [cliente_sale_empleados, cliente_sale_eventos, setCliente_empleados,
          setCliente_eventos, draw_snd_empleados, draw_snd_eventos]
        exact hinv1
      · exact Or.inr rfl
      · exact And.right (by assumption)
    · simp only [cliente_sale_empleados, cliente_sale_eventos, setCliente_empleados,
        setCliente_eventos, draw_snd_empleados, draw_snd_eventos]
      exact hinv1
    · simp only [cliente_sale_empleados, cliente_sale_eventos, setCliente_empleados,
        setCliente_eventos, draw_snd_empleados, draw_snd_eventos]
      exact hinv1
    · refine INVP_agregar _ _ ?_ ?_
      · simp only [setCliente_empleados, setCliente_eventos, draw_snd_empleados,
          draw_snd_eventos]
        exact hinv1
      · intro hh
        exact TipoEvento.noConfusion hh
    · apply atender_INVP
      · simp only [agregar_evento_empleados, agregar_evento_eventos,
          setCliente_empleados, setCliente_eventos, draw_snd_empleados, draw_snd_eventos]
        refine INVP_push_nonfin _ _ _ ?_ ?_
        · try simp only [setCliente_empleados, setCliente_eventos, draw_snd_empleados,
            draw_snd_eventos]
          exact hinv1
        · intro hh
          exact TipoEvento.noConfusion hh
      · exact Or.inr rfl
      · exact And.right (by assumption)
    · refine INVP_agregar _ _ ?_ ?_
      · simp only [setCliente_empleados, setCliente_eventos, draw_snd_empleados,
          draw_snd_eventos]
        exact hinv1
      · intro hh
        exact TipoEvento.noConfusion hh
    · refine INVP_agregar _ _ ?_ ?_
      · simp only [setCliente_empleados, setCliente_eventos, draw_snd_empleados,
          draw_snd_eventos]
        exact hinv1
      · intro hh
        exact TipoEvento.noConfusion hh
    · simp only [cliente_sale_empleados, cliente_sale_eventos, setCliente_empleados,
        setCliente_eventos, draw_snd_empleados, draw_snd_eventos]
      exact hinv1
    · apply atender_INVP
      · simp only [cliente_sale_empleados, cliente_sale_eventos, setCliente_empleados,
          setCliente_eventos, draw_snd_empleados, draw_snd_eventos]
        exact hinv1
      · exact Or.inr rfl
      · exact And.right (by assumption)
    · simp only [cliente_sale_empleados, cliente_sale_eventos, setCliente_empleados,
        setCliente_eventos, draw_snd_empleados, draw_snd_eventos]
      exact hinv1
    · simp only [cliente_sale_empleados, cliente_sale_eventos, setCliente_empleados,
        setCliente_eventos, draw_snd_empleados, draw_snd_eventos]
      exact hinv1

end Simulacion
namespace Simulacion

set_option maxHeartbeats 1000000 in
/-- One engine step preserves the invariant. -/
theorem ejecutar_paso_INV (s : Simulacion) (hinv : INV s) : INV (ejecutar_paso s).2 := by
  unfold INV at hinv ⊢
  unfold ejecutar_paso
  dsimp only
  split
  · split_ifs <;> exact hinv
  · split
    · exact hinv
    · rename_i p evento s' heq
      unfold proximo_evento at heq
      cases hpp : heapq.heappop s.eventos with
      | none =>
        rw [hpp] at heq
        exact Option.noConfusion heq
      | some pr =>
        obtain ⟨e, h'⟩ := pr
        rw [hpp] at heq
        dsimp only [Option.map] at heq
        injection heq with heq'
        have hev : e = evento := congrArg Prod.fst heq'
        have hs' : ({ s with eventos := h' } : Simulacion) = s' :=
          congrArg Prod.snd heq'
        have hperm := heapq.heappop_perm s.eventos e h' hpp
        have hinv' : INVP s.empleados (e :: h') := INVP_perm _ hperm hinv
        subst hs'
        subst hev
        split_ifs with ht1 ha1 ht2 ha2 ht3 ha3 ha4
        · exact llegada_INVP _ (INVP_pop_nonfin _ _ _ hinv'
            (fun hh => TipoEvento.noConfusion (ht1.symm.trans hh)))
        · exact llegada_INVP _ (INVP_pop_nonfin _ _ _ hinv'
            (fun hh => TipoEvento.noConfusion (ht1.symm.trans hh)))
        · exact fin_atencion_INVP _ _ hinv' ht2
        · exact fin_atencion_INVP _ _ hinv' ht2
        · exact fin_lectura_INVP _ _ (INVP_pop_nonfin _ _ _ hinv'
            (fun hh => TipoEvento.noConfusion (ht3.symm.trans hh)))
        · exact fin_lectura_INVP _ _ (INVP_pop_nonfin _ _ _ hinv'
            (fun hh => TipoEvento.noConfusion (ht3.symm.trans hh)))
        · exact INVP_pop_nonfin _ _ _ hinv' ht2
        · exact INVP_pop_nonfin _ _ _ hinv' ht2

end Simulacion
namespace Simulacion

/-- The invariant holds right after `iniciar`. -/
theorem INV_iniciar (p : Parametros) (rnds : Nat → Rat) (lg : Rat → Rat) :
    INV (iniciar (mkSim p rnds lg)) := by
  unfold INV iniciar
  dsimp only
  refine INVP_agregar _ _ ?_ (fun hh => TipoEvento.noConfusion hh)
  refine ⟨rfl, rfl, ?_, ?_, ?_, ?_, ?_⟩
  · show (0 : Rat) + 0 = 0
    norm_num
  · show (0 : Rat) + 0 = 0
    norm_num
  · unfold finOK countFin
    show List.countP _ [] = _
    rw [List.countP_nil]
    rfl
  · unfold finOK countFin
    show List.countP _ [] = _
    rw [List.countP_nil]
    rfl
  · intro e hmem
    exact absurd hmem (List.not_mem_nil e)

/-- The invariant holds at every reachable state of a run. -/
theorem ejecutar_pasos_INV (n : Nat) (s : Simulacion) (hinv : INV s) :
    INV (ejecutar_pasos n s) := by
  induction n generalizing s with
  | zero => exact hinv
  | succ k ih => exact ih _ (ejecutar_paso_INV s hinv)

/-- The concrete one-step run refuting the spec's clock identity: the
arrival at t = 4 is served by clerk 1, clerk 2 is untouched. -/
def sC1run : Simulacion :=
  ejecutar_pasos 1 (iniciar (mkSim {} (fun _ => 1/2) (fun _ => 0)))

end Simulacion

/-- C1 (amended): at every reachable state of every run, each clerk's
cumulative busy plus idle time equals the clock of that clerk's *last state
change* (`ultimo_cambio_estado`) — the accumulators are accrued lazily, not
kept in step with the simulation clock. -/
theorem C1_acumuladores_igualan_ultimo_cambio (p : Parametros) (rnds : Nat → Rat)
    (lg : Rat → Rat) (n : Nat) :
    ((Simulacion.ejecutar_pasos n (Simulacion.iniciar (mkSim p rnds lg))).empleados.1.tiempo_acumulado_atencion
        + (Simulacion.ejecutar_pasos n (Simulacion.iniciar (mkSim p rnds lg))).empleados.1.tiempo_acumulado_ocioso
        = (Simulacion.ejecutar_pasos n (Simulacion.iniciar (mkSim p rnds lg))).empleados.1.ultimo_cambio_estado) ∧
    ((Simulacion.ejecutar_pasos n (Simulacion.iniciar (mkSim p rnds lg))).empleados.2.tiempo_acumulado_atencion
        + (Simulacion.ejecutar_pasos n (Simulacion.iniciar (mkSim p rnds lg))).empleados.2.tiempo_acumulado_ocioso
        = (Simulacion.ejecutar_pasos n (Simulacion.iniciar (mkSim p rnds lg))).empleados.2.ultimo_cambio_estado) := by
  have h := Simulacion.ejecutar_pasos_INV n _ (Simulacion.INV_iniciar p rnds lg)
  exact ⟨h.2.2.1, h.2.2.2.1⟩

/-- C1 counterexample to the spec's wording: after the first step of the
default run the clock is 4 but clerk 2's busy + idle total is still 0, so
`busy + idle = clock - start` fails at this snapshot. -/
theorem C1_contraejemplo_reloj_vs_acumuladores :
    Simulacion.sC1run.reloj = 4 ∧
    Simulacion.sC1run.empleados.2.tiempo_acumulado_atencion
        + Simulacion.sC1run.empleados.2.tiempo_acumulado_ocioso = 0 ∧
    ¬ (Simulacion.sC1run.empleados.2.tiempo_acumulado_atencion
        + Simulacion.sC1run.empleados.2.tiempo_acumulado_ocioso
        = Simulacion.sC1run.reloj - 0) := by
  with_unfolding_all decide
/-! ## Arrivals keep the FEL alive (claim C9) -/

/-- Outstanding arrival events in the FEL. -/
def countLleg (evs : List Evento) : Nat :=
  evs.countP (fun e => decide (e.tipo = TipoEvento.LLEGADA_CLIENTE))

theorem countLleg_heappush (evs : List Evento) (ev : Evento) :
    countLleg (heapq.heappush evs ev)
        = countLleg evs + (if ev.tipo = TipoEvento.LLEGADA_CLIENTE then 1 else 0) := by
  unfold countLleg
  rw [heapq.heappush_countP, List.countP_cons]
  simp only [decide_eq_true_eq]

namespace Simulacion

theorem atender_cliente_countLleg (s : Simulacion) (cid eid : Nat) :
    countLleg (s._atender_cliente cid eid).eventos = countLleg s.eventos := by
  obtain ⟨tf, -, hev⟩ := (atender_cliente_frame s cid eid).2.2.2.2
  rw [hev, countLleg_heappush]
  rw [if_neg (fun hh => TipoEvento.noConfusion hh)]
  omega

/-- The arrival handler always schedules the next arrival. -/
theorem llegada_countLleg (s : Simulacion) :
    0 < countLleg (procesar_llegada_cliente s).1.eventos := by
  unfold procesar_llegada_cliente
  dsimp only
  split
  · rw [agregar_evento_eventos, countLleg_heappush]
    simp
  · rw [agregar_evento_eventos, countLleg_heappush]
    simp

set_option maxHeartbeats 1000000 in
/-- The reading-end handler never removes events. -/
theorem fin_lectura_countLleg (s : Simulacion) (evento : Evento) :
    countLleg s.eventos ≤ countLleg (procesar_fin_lectura s evento).1.eventos := by
  unfold procesar_fin_lectura
  dsimp only
  split_ifs with hley <;>
    · split
      · rw [atender_cliente_countLleg]
        simp only [setCliente_eventos]
        exact le_refl _
      · simp only [setCliente_eventos]
        exact le_refl _

end Simulacion
namespace Simulacion

set_option maxHeartbeats 2000000 in
/-- The service-end handler never removes events. -/
theorem fin_atencion_countLleg (s : Simulacion) (evento : Evento) :
    countLleg s.eventos ≤ countLleg (procesar_fin_atencion s evento).1.eventos := by
  unfold procesar_fin_atencion
  dsimp only
  split_ifs <;> try split
  all_goals
    simp only [atender_cliente_countLleg, agregar_evento_eventos, countLleg_heappush,
      cliente_sale_eventos, setCliente_eventos, setEmpleado_eventos, draw_snd_eventos]
  all_goals try omega
  all_goals try exact le_refl _

end Simulacion
namespace Simulacion

theorem setCliente_numero_fila (s : Simulacion) (c : Cliente) :
    (s.setCliente c).numero_fila = s.numero_fila := rfl

theorem setCliente_historial (s : Simulacion) (c : Cliente) :
    (s.setCliente c).historial_filas = s.historial_filas := rfl

theorem setCliente_max_iteraciones (s : Simulacion) (c : Cliente) :
    (s.setCliente c).max_iteraciones = s.max_iteraciones := rfl

theorem setEmpleado_numero_fila (s : Simulacion) (e : Empleado) :
    (s.setEmpleado e).numero_fila = s.numero_fila := by
  unfold setEmpleado
  split <;> rfl

theorem setEmpleado_historial (s : Simulacion) (e : Empleado) :
    (s.setEmpleado e).historial_filas = s.historial_filas := by
  unfold setEmpleado
  split <;> rfl

theorem setEmpleado_max_iteraciones (s : Simulacion) (e : Empleado) :
    (s.setEmpleado e).max_iteraciones = s.max_iteraciones := by
  unfold setEmpleado
  split <;> rfl

theorem agregar_evento_numero_fila (s : Simulacion) (e : Evento) :
    (s.agregar_evento e).numero_fila = s.numero_fila := rfl

theorem agregar_evento_historial (s : Simulacion) (e : Evento) :
    (s.agregar_evento e).historial_filas = s.historial_filas := rfl

theorem agregar_evento_max_iteraciones (s : Simulacion) (e : Evento) :
    (s.agregar_evento e).max_iteraciones = s.max_iteraciones := rfl

theorem cliente_sale_numero_fila (s : Simulacion) (cid : Nat) :
    (s._cliente_sale cid).numero_fila = s.numero_fila := by
  unfold _cliente_sale
  dsimp only
  split <;> · split <;> · split <;> rfl

theorem cliente_sale_historial (s : Simulacion) (cid : Nat) :
    (s._cliente_sale cid).historial_filas = s.historial_filas := by
  unfold _cliente_sale
  dsimp only
  split <;> · split <;> · split <;> rfl

theorem cliente_sale_max_iteraciones (s : Simulacion) (cid : Nat) :
    (s._cliente_sale cid).max_iteraciones = s.max_iteraciones := by
  unfold _cliente_sale
  dsimp only
  split <;> · split <;> · split <;> rfl

theorem generar_objetivo_snd_numero_fila (s : Simulacion) :
    (generar_objetivo s).2.numero_fila = s.numero_fila := by
  unfold generar_objetivo draw
  dsimp only
  split_ifs <;> rfl

theorem generar_objetivo_snd_historial (s : Simulacion) :
    (generar_objetivo s).2.historial_filas = s.historial_filas := by
  unfold generar_objetivo draw
  dsimp only
  split_ifs <;> rfl

theorem generar_objetivo_snd_max_iteraciones (s : Simulacion) :
    (generar_objetivo s).2.max_iteraciones = s.max_iteraciones := by
  unfold generar_objetivo draw
  dsimp only
  split_ifs <;> rfl

set_option maxHeartbeats 1000000 in
theorem atender_cliente_admin (s : Simulacion) (cid eid : Nat) :
    (s._atender_cliente cid eid).numero_fila = s.numero_fila ∧
    (s._atender_cliente cid eid).historial_filas = s.historial_filas ∧
    (s._atender_cliente cid eid).max_iteraciones = s.max_iteraciones := by
  unfold _atender_cliente
  dsimp only [generar_tiempo_consulta, generar_tiempo_busqueda,
    generar_tiempo_devolucion, draw]
  split_ifs <;>
    exact ⟨by
        rw [agregar_evento_numero_fila, setEmpleado_numero_fila, setCliente_numero_fila],
      by
        rw [agregar_evento_historial, setEmpleado_historial, setCliente_historial],
      by
        rw [agregar_evento_max_iteraciones, setEmpleado_max_iteraciones,
          setCliente_max_iteraciones]⟩

theorem atender_cliente_numero_fila (s : Simulacion) (cid eid : Nat) :
    (s._atender_cliente cid eid).numero_fila = s.numero_fila :=
  (atender_cliente_admin s cid eid).1

theorem atender_cliente_historial (s : Simulacion) (cid eid : Nat) :
    (s._atender_cliente cid eid).historial_filas = s.historial_filas :=
  (atender_cliente_admin s cid eid).2.1

theorem atender_cliente_max_iteraciones (s : Simulacion) (cid eid : Nat) :
    (s._atender_cliente cid eid).max_iteraciones = s.max_iteraciones :=
  (atender_cliente_admin s cid eid).2.2

end Simulacion
namespace Simulacion

theorem draw_snd_numero_fila (s : Simulacion) : (s.draw).2.numero_fila = s.numero_fila := rfl

theorem draw_snd_historial (s : Simulacion) :
    (s.draw).2.historial_filas = s.historial_filas := rfl

theorem draw_snd_max_iteraciones (s : Simulacion) :
    (s.draw).2.max_iteraciones = s.max_iteraciones := rfl

set_option maxHeartbeats 1000000 in
/-- The arrival handler leaves row number, history and cap untouched. -/
theorem llegada_admin (s : Simulacion) :
    (procesar_llegada_cliente s).1.numero_fila = s.numero_fila ∧
    (procesar_llegada_cliente s).1.historial_filas = s.historial_filas ∧
    (procesar_llegada_cliente s).1.max_iteraciones = s.max_iteraciones := by
  unfold procesar_llegada_cliente
  dsimp only
  split_ifs <;> try split
  all_goals
    refine ⟨?_, ?_, ?_⟩ <;>
      simp only [agregar_evento_numero_fila, agregar_evento_historial,
        agregar_evento_max_iteraciones, atender_cliente_numero_fila,
        atender_cliente_historial, atender_cliente_max_iteraciones,
        setCliente_numero_fila, setCliente_historial, setCliente_max_iteraciones,
        generar_objetivo_snd_numero_fila, generar_objetivo_snd_historial,
        generar_objetivo_snd_max_iteraciones]

set_option maxHeartbeats 1000000 in
/-- The reading-end handler leaves row number, history and cap untouched. -/
theorem fin_lectura_admin (s : Simulacion) (evento : Evento) :
    (procesar_fin_lectura s evento).1.numero_fila = s.numero_fila ∧
    (procesar_fin_lectura s evento).1.historial_filas = s.historial_filas ∧
    (procesar_fin_lectura s evento).1.max_iteraciones = s.max_iteraciones := by
  unfold procesar_fin_lectura
  dsimp only
  split_ifs <;> try split
  all_goals
    refine ⟨?_, ?_, ?_⟩ <;>
      simp only [atender_cliente_numero_fila, atender_cliente_historial,
        atender_cliente_max_iteraciones, setCliente_numero_fila,
        setCliente_historial, setCliente_max_iteraciones]

set_option maxHeartbeats 2000000 in
/-- The service-end handler leaves row number, history and cap untouched. -/
theorem fin_atencion_admin (s : Simulacion) (evento : Evento) :
    (procesar_fin_atencion s evento).1.numero_fila = s.numero_fila ∧
    (procesar_fin_atencion s evento).1.historial_filas = s.historial_filas ∧
    (procesar_fin_atencion s evento).1.max_iteraciones = s.max_iteraciones := by
  unfold procesar_fin_atencion
  dsimp only
  split_ifs <;> try split
  all_goals
    refine ⟨?_, ?_, ?_⟩ <;>
      simp only [atender_cliente_numero_fila, atender_cliente_historial,
        atender_cliente_max_iteraciones, agregar_evento_numero_fila,
        agregar_evento_historial, agregar_evento_max_iteraciones,
        cliente_sale_numero_fila, cliente_sale_historial,
        cliente_sale_max_iteraciones, setCliente_numero_fila, setCliente_historial,
        setCliente_max_iteraciones, setEmpleado_numero_fila, setEmpleado_historial,
        setEmpleado_max_iteraciones, draw_snd_numero_fila, draw_snd_historial,
        draw_snd_max_iteraciones]

end Simulacion
theorem countLleg_cons (e : Evento) (l : List Evento) :
    countLleg (e :: l)
        = countLleg l + (if e.tipo = TipoEvento.LLEGADA_CLIENTE then 1 else 0) := by
  unfold countLleg
  rw [List.countP_cons]
  simp only [decide_eq_true_eq]

namespace Simulacion

set_option maxHeartbeats 1000000 in
/-- Below the iteration cap, a step with a live arrival in the FEL records a
row, advances the row counter by one, and keeps an arrival scheduled. -/
theorem ejecutar_paso_some (s : Simulacion) (hA : 0 < countLleg s.eventos)
    (hn : ¬ s.numero_fila > s.max_iteraciones) :
    (ejecutar_paso s).1.isSome = true ∧
    (ejecutar_paso s).2.numero_fila = s.numero_fila + 1 ∧
    (ejecutar_paso s).2.historial_filas.length = s.historial_filas.length + 1 ∧
    (ejecutar_paso s).2.max_iteraciones = s.max_iteraciones ∧
    0 < countLleg (ejecutar_paso s).2.eventos := by
  unfold ejecutar_paso
  dsimp only
  rw [if_neg hn]
  have hne : s.eventos ≠ [] := by
    intro h0
    rw [h0] at hA
    unfold countLleg at hA
    simp at hA
  cases hpp : heapq.heappop s.eventos with
  | none => exact absurd ((heapq.heappop_eq_none_iff s.eventos).mp hpp) hne
  | some pr =>
    obtain ⟨e, h'⟩ := pr
    unfold proximo_evento
    rw [hpp]
    dsimp only [Option.map]
    have hperm := heapq.heappop_perm s.eventos e h' hpp
    have hA' : 0 < countLleg (e :: h') := by
      unfold countLleg at hA ⊢
      rw [← hperm.countP_eq]
      exact hA
    split_ifs with ht1 ha1 ht2 ha2 ht3 ha3 ha4
    all_goals dsimp only
    · refine ⟨rfl, ?_, ?_, ?_, ?_⟩
      · rw [(llegada_admin _).1]
      · rw [List.length_append, (llegada_admin _).2.1]
        rfl
      · rw [(llegada_admin _).2.2]
      · exact llegada_countLleg _
    · refine ⟨rfl, ?_, ?_, ?_, ?_⟩
      · rw [(llegada_admin _).1]
      · rw [List.length_append, (llegada_admin _).2.1]
        rfl
      · rw [(llegada_admin _).2.2]
      · exact llegada_countLleg _
    · refine ⟨rfl, ?_, ?_, ?_, ?_⟩
      · rw [(fin_atencion_admin _ _).1]
      · rw [List.length_append, (fin_atencion_admin _ _).2.1]
        rfl
      · rw [(fin_atencion_admin _ _).2.2]
      · have h0 : 0 < countLleg h' := by
          rw [countLleg_cons,
            if_neg (fun hh => TipoEvento.noConfusion (ht2.symm.trans hh))] at hA'
          omega
        refine lt_of_lt_of_le ?_ (fin_atencion_countLleg _ _)
        exact h0
    · refine ⟨rfl, ?_, ?_, ?_, ?_⟩
      · rw [(fin_atencion_admin _ _).1]
      · rw [List.length_append, (fin_atencion_admin _ _).2.1]
        rfl
      · rw [(fin_atencion_admin _ _).2.2]
      · have h0 : 0 < countLleg h' := by
          rw [countLleg_cons,
            if_neg (fun hh => TipoEvento.noConfusion (ht2.symm.trans hh))] at hA'
          omega
        refine lt_of_lt_of_le ?_ (fin_atencion_countLleg _ _)
        exact h0
    · refine ⟨rfl, ?_, ?_, ?_, ?_⟩
      · rw [(fin_lectura_admin _ _).1]
      · rw [List.length_append, (fin_lectura_admin _ _).2.1]
        rfl
      · rw [(fin_lectura_admin _ _).2.2]
      · have h0 : 0 < countLleg h' := by
          rw [countLleg_cons,
            if_neg (fun hh => TipoEvento.noConfusion (ht3.symm.trans hh))] at hA'
          omega
        refine lt_of_lt_of_le ?_ (fin_lectura_countLleg _ _)
        exact h0
    · refine ⟨rfl, ?_, ?_, ?_, ?_⟩
      · rw [(fin_lectura_admin _ _).1]
      · rw [List.length_append, (fin_lectura_admin _ _).2.1]
        rfl
      · rw [(fin_lectura_admin _ _).2.2]
      · have h0 : 0 < countLleg h' := by
          rw [countLleg_cons,
            if_neg (fun hh => TipoEvento.noConfusion (ht3.symm.trans hh))] at hA'
          omega
        refine lt_of_lt_of_le ?_ (fin_lectura_countLleg _ _)
        exact h0
    · refine ⟨rfl, rfl, ?_, rfl, ?_⟩
      · rw [List.length_append]
        rfl
      · show 0 < countLleg h'
        rw [countLleg_cons, if_neg ht1] at hA'
        omega
    · refine ⟨rfl, rfl, ?_, rfl, ?_⟩
      · rw [List.length_append]
        rfl
      · show 0 < countLleg h'
        rw [countLleg_cons, if_neg ht1] at hA'
        omega

/-- Above the iteration cap, the step records the final row and stops. -/
theorem ejecutar_paso_none (s : Simulacion)
    (hcap : s.numero_fila > s.max_iteraciones) :
    (ejecutar_paso s).1 = none ∧
    (ejecutar_paso s).2.historial_filas.length = s.historial_filas.length + 1 := by
  unfold ejecutar_paso
  dsimp only
  rw [if_pos hcap]
  split_ifs <;>
    · refine ⟨rfl, ?_⟩
      dsimp only
      rw [List.length_append]
      rfl

end Simulacion
namespace Simulacion

/-- As long as an arrival is always scheduled, the run loop only stops at
the iteration cap, having recorded exactly `max_iteraciones + 2` rows
(initialization row, `max_iteraciones` event rows, final row). -/
theorem runLoop_len (fuel : Nat) : ∀ (s : Simulacion),
    0 < countLleg s.eventos →
    s.historial_filas.length = s.numero_fila →
    s.numero_fila ≤ s.max_iteraciones + 1 →
    s.max_iteraciones + 2 ≤ s.numero_fila + fuel →
    (runLoop fuel s).historial_filas.length = s.max_iteraciones + 2 := by
  induction fuel with
  | zero =>
    intro s hA hlen hle hfuel
    omega
  | succ f ih =>
    intro s hA hlen hle hfuel
    by_cases hcap : s.numero_fila > s.max_iteraciones
    · obtain ⟨h1, h2⟩ := ejecutar_paso_none s hcap
      unfold runLoop
      rcases hps : ejecutar_paso s with ⟨o, s2⟩
      rw [hps] at h1 h2
      dsimp only at h1 h2
      subst h1
      dsimp only
      rw [h2, hlen]
      omega
    · obtain ⟨hs, hn, hl, hm, hA2⟩ := ejecutar_paso_some s hA hcap
      unfold runLoop
      rcases hps : ejecutar_paso s with ⟨o, s2⟩
      rw [hps] at hs hn hl hm hA2
      dsimp only at hs hn hl hm hA2
      cases o with
      | none => exact absurd hs (by simp)
      | some fila =>
        dsimp only
        have hres := ih s2 hA2 (by rw [hl, hn, hlen]) (by rw [hn, hm]; omega)
          (by rw [hn, hm]; omega)
        rw [hm] at hres
        exact hres

end Simulacion
/-- The run of Scenario D's configuration: inter-arrival 481 exceeds the
480-minute horizon; the iteration cap is 2, the draws alternate 9/10
(Consult intent) and 0 (minimal service time). -/
def sC9 : Simulacion :=
  mkSim { tiempo_entre_llegadas := 481, max_iteraciones := 2 }
    (fun i => if i % 2 = 0 then 9 / 10 else 0) (fun _ => 0)

/-- C9 (amended): no run terminates early — for every configuration and
oracle the loop executes until the iteration cap, recording exactly
`max_iteraciones + 2` snapshot rows (arrivals re-schedule themselves, so
the FEL never empties). -/
theorem C9_corre_hasta_el_cap (p : Parametros) (rnds : Nat → Rat) (lg : Rat → Rat) :
    (Simulacion.ejecutar_completa (mkSim p rnds lg)).historial_filas.length
        = p.max_iteraciones + 2 := by
  unfold Simulacion.ejecutar_completa
  refine Eq.trans (Simulacion.runLoop_len _ _ ?_ ?_ ?_ ?_) ?_
  · show 0 < countLleg (Simulacion.iniciar (mkSim p rnds lg)).eventos
    unfold Simulacion.iniciar
    dsimp only
    rw [Simulacion.agregar_evento_eventos, countLleg_heappush]
    simp
  · rfl
  · show 1 ≤ p.max_iteraciones + 1
    omega
  · show p.max_iteraciones + 2 ≤ 1 + (p.max_iteraciones + 2)
    omega
  · rfl

/-- C9 counterexample to the spec's wording: with inter-arrival 481 > 480
the run still serves the (out-of-horizon) arrival — one departed customer,
four rows, zero closed time — instead of terminating immediately with zero
departures. -/
theorem C9_contraejemplo_atiende_fuera_de_horizonte :
    sC9.tiempo_entre_llegadas > sC9.tiempo_maximo ∧
    (Simulacion.ejecutar_completa sC9).total_clientes_atendidos = 1 ∧
    (Simulacion.ejecutar_completa sC9).historial_filas.length = 4 ∧
    (Simulacion.ejecutar_completa sC9).tiempo_biblioteca_cerrada_ac = 0 := by
  with_unfolding_all decide
